import Mathlib

/-!
# Car physics: the per-frame movement and collision step

A shallow embedding of `src/src/main.js` (helpers `boxFromCenterAndSize`, `getMTV`,
`projectVectorOnPlane`, `getRampPlane`, `planeHeightAtXZ`, `createRamp`, and the frame
routine `resolveCollisionsAndMove`), followed by the properties of the specification that
concern it.

Numbers: JavaScript numbers are modelled by an arbitrary linearly ordered field `α`
(exact arithmetic; rounding is not modelled).  The three library functions that are not
field operations, `Math.sqrt`, `Math.sin` and `Math.cos`, are passed in as a `JSMath α`
record; every theorem states which property of them it relies on.  All definitions are
computable for a computable `α` such as `ℚ`.

The three.js classes (`Vector3`, `Box3`, `Quaternion`) are an external library; the few
methods the program calls are modelled after their three.js definitions, each named after
the method it stands for.
-/

namespace CarPhysics

/-- The functions of the JavaScript `Math` object that are not field operations. -/
structure JSMath (α : Type) where
  /-- Stands for `Math.sqrt`. -/
  sqrt : α → α
  /-- Stands for `Math.sin`. -/
  sin : α → α
  /-- Stands for `Math.cos`. -/
  cos : α → α

/-- A three.js `Vector3`. -/
@[ext] structure Vector3 (α : Type) where
  x : α
  y : α
  z : α
deriving DecidableEq, Repr

/-- A three.js `Quaternion`. -/
structure Quaternion (α : Type) where
  x : α
  y : α
  z : α
  w : α
deriving DecidableEq, Repr

/-- A three.js `Box3`: an axis-aligned box given by its two extreme corners. -/
@[ext] structure Box3 (α : Type) where
  min : Vector3 α
  max : Vector3 α
deriving DecidableEq, Repr

section Model

variable {α : Type} [LinearOrderedField α]

namespace Vector3

/-- Method `Vector3.add`. -/
def add (a b : Vector3 α) : Vector3 α := ⟨a.x + b.x, a.y + b.y, a.z + b.z⟩

/-- Method `Vector3.sub`. -/
def sub (a b : Vector3 α) : Vector3 α := ⟨a.x - b.x, a.y - b.y, a.z - b.z⟩

/-- Method `Vector3.multiplyScalar`. -/
def multiplyScalar (a : Vector3 α) (s : α) : Vector3 α := ⟨a.x * s, a.y * s, a.z * s⟩

/-- Method `Vector3.divideScalar`, which three.js defines as `multiplyScalar(1 / s)`. -/
def divideScalar (a : Vector3 α) (s : α) : Vector3 α := a.multiplyScalar (1 / s)

/-- Method `Vector3.dot`. -/
def dot (a b : Vector3 α) : α := a.x * b.x + a.y * b.y + a.z * b.z

/-- Method `Vector3.lengthSq`. -/
def lengthSq (a : Vector3 α) : α := a.x * a.x + a.y * a.y + a.z * a.z

/-- Method `Vector3.length`: `Math.sqrt(x*x + y*y + z*z)`. -/
def length (sqrt : α → α) (a : Vector3 α) : α := sqrt (a.x * a.x + a.y * a.y + a.z * a.z)

/-- Method `Vector3.normalize`: `divideScalar(length() || 1)`. -/
def normalize (sqrt : α → α) (a : Vector3 α) : Vector3 α :=
  a.divideScalar (if a.length sqrt = 0 then 1 else a.length sqrt)

/-- Method `Vector3.setLength`: `normalize().multiplyScalar(length)`. -/
def setLength (sqrt : α → α) (a : Vector3 α) (l : α) : Vector3 α :=
  (a.normalize sqrt).multiplyScalar l

/-- Method `Vector3.applyQuaternion`. -/
def applyQuaternion (v : Vector3 α) (q : Quaternion α) : Vector3 α :=
  let tx := 2 * (q.y * v.z - q.z * v.y)
  let ty := 2 * (q.z * v.x - q.x * v.z)
  let tz := 2 * (q.x * v.y - q.y * v.x)
  ⟨v.x + q.w * tx + q.y * tz - q.z * ty,
   v.y + q.w * ty + q.z * tx - q.x * tz,
   v.z + q.w * tz + q.x * ty - q.y * tx⟩

end Vector3

namespace Box3

/-- Method `Box3.isEmpty`. -/
def isEmpty (b : Box3 α) : Bool :=
  decide (b.max.x < b.min.x ∨ b.max.y < b.min.y ∨ b.max.z < b.min.z)

/-- Method `Box3.getCenter`: the origin for an empty box, the midpoint otherwise. -/
def getCenter (b : Box3 α) : Vector3 α :=
  if b.isEmpty then ⟨0, 0, 0⟩ else (b.min.add b.max).multiplyScalar 0.5

/-- Method `Box3.intersectsBox`: closed boxes, so touching faces count as intersecting. -/
def intersectsBox (self box : Box3 α) : Bool :=
  decide (box.max.x ≥ self.min.x ∧ box.min.x ≤ self.max.x ∧
          box.max.y ≥ self.min.y ∧ box.min.y ≤ self.max.y ∧
          box.max.z ≥ self.min.z ∧ box.min.z ≤ self.max.z)

end Box3

/-! ## Helpers (`main.js` lines 15-52) -/

/-- Function `boxFromCenterAndSize` (lines 15-21). -/
def boxFromCenterAndSize (center size : Vector3 α) : Box3 α :=
  let half := size.multiplyScalar 0.5
  ⟨⟨center.x - half.x, center.y - half.y, center.z - half.z⟩,
   ⟨center.x + half.x, center.y + half.y, center.z + half.z⟩⟩

/-- The `axis` variable of `getMTV`. -/
inductive Axis where
  | x
  | y
  | z
deriving DecidableEq, Repr

/-- Function `getMTV` (lines 27-46); `none` stands for `null`. -/
def getMTV (a b : Box3 α) : Option (Vector3 α) :=
  let overlapX := min a.max.x b.max.x - max a.min.x b.min.x
  let overlapY := min a.max.y b.max.y - max a.min.y b.min.y
  let overlapZ := min a.max.z b.max.z - max a.min.z b.min.z
  if overlapX ≤ 0 ∨ overlapY ≤ 0 ∨ overlapZ ≤ 0 then none
  else
    let s0 : α × Axis := (overlapX, Axis.x)
    let s1 : α × Axis := if overlapY < s0.1 then (overlapY, Axis.y) else s0
    let s2 : α × Axis := if overlapZ < s1.1 then (overlapZ, Axis.z) else s1
    let minOverlap := s2.1
    let centerA := a.getCenter
    let centerB := b.getCenter
    match s2.2 with
    | Axis.x => some ⟨if centerA.x < centerB.x then -minOverlap else minOverlap, 0, 0⟩
    | Axis.y => some ⟨0, if centerA.y < centerB.y then -minOverlap else minOverlap, 0⟩
    | Axis.z => some ⟨0, 0, if centerA.z < centerB.z then -minOverlap else minOverlap⟩

/-- Function `projectVectorOnPlane` (lines 48-52). -/
def projectVectorOnPlane (sqrt : α → α) (vec planeNormal : Vector3 α) : Vector3 α :=
  let n := planeNormal.normalize sqrt
  let comp := n.multiplyScalar (vec.dot n)
  vec.sub comp

/-! ## Constants (`main.js` lines 165-167 and 184-193, `createRamp` lines 95-97) -/

/-- Constant `carWidth`. -/
def carWidth : α := 2
/-- Constant `carHeight`. -/
def carHeight : α := 1
/-- Constant `carLength`. -/
def carLength : α := 4
/-- Constant `maxSpeed`. -/
def maxSpeed : α := 1.2
/-- Constant `accelerationRate`. -/
def accelerationRate : α := 0.02
/-- Constant `brakingRate`. -/
def brakingRate : α := 0.04
/-- Constant `airDrag`. -/
def airDrag : α := 0.995
/-- Constant `gravity`. -/
def gravity : α := -0.015
/-- Constant `restitution`. -/
def restitution : α := 0.3
/-- Constant `jumpForce`. -/
def jumpForce : α := 0.35
/-- Constant `deltaTime`. -/
def deltaTime : α := 1 / 60
/-- Local constant `rampLength` of `createRamp`. -/
def rampLength : α := 10
/-- Local constant `rampWidth` of `createRamp`. -/
def rampWidth : α := 5
/-- Local constant `rampHeight` of `createRamp`. -/
def rampHeight : α := 2

/-! ## State -/

/-- The entries of the `keys` table that `resolveCollisionsAndMove` reads; an entry that was
never set is falsy, hence `false`. -/
structure Keys where
  ArrowUp : Bool
  KeyW : Bool
  ArrowDown : Bool
  KeyS : Bool
  ArrowLeft : Bool
  KeyA : Bool
  ArrowRight : Bool
  KeyD : Bool
  Space : Bool
  Spacebar : Bool
deriving DecidableEq, Repr

/-- The mutable state of the frame routine: `car.position`, `car.rotation.y` (the only Euler
angle the program ever changes) and the global `velocity`. -/
@[ext] structure Car (α : Type) where
  position : Vector3 α
  rotationY : α
  velocity : Vector3 α
deriving DecidableEq, Repr

/-- What the frame routine reads of a ramp mesh `r`: its world position
(`getWorldPosition`), its world orientation (`getWorldQuaternion`) and its bounding box
`computeAABB(r)`. -/
structure Ramp (α : Type) where
  position : Vector3 α
  quaternion : Quaternion α
  aabb : Box3 α
deriving DecidableEq, Repr

/-- The record `{ normal, point }` returned by `getRampPlane`. -/
structure Plane (α : Type) where
  normal : Vector3 α
  point : Vector3 α
deriving DecidableEq, Repr

/-- The static scene: `obstacles` holds `computeAABB(obj)` for each entry of the global
`obstacles` array, in order; `ramps` is the local array `ramps`, in order. -/
structure World (α : Type) where
  obstacles : List (Box3 α)
  ramps : List (Ramp α)

/-- Field `car.quaternion`, which three.js keeps equal to the quaternion of the Euler
angles `(0, rotation.y, 0)`. -/
def carQuaternion (M : JSMath α) (rotationY : α) : Quaternion α :=
  ⟨0, M.sin (rotationY / 2), 0, M.cos (rotationY / 2)⟩

/-! ## Ramp helpers (lines 94-105 and 205-215) -/

/-- Function `createRamp` (lines 94-105), as the frame routine sees the mesh it returns: a
`rampWidth × rampHeight × rampLength` box centred at `(x, rampHeight / 2, z)` and turned by
`inclineRadians` about the x axis, so with quaternion `(sin(incline/2), 0, 0, cos(incline/2))`.
`c` and `s` are the entries of the rotation matrix of that quaternion, and the bounding box
is that of the eight turned corners of the box geometry (the side walls that
`createRampWall` attaches afterwards are not part of it). -/
def createRamp (M : JSMath α) (x z inclineRadians : α) : Ramp α :=
  let qx := M.sin (inclineRadians / 2)
  let qw := M.cos (inclineRadians / 2)
  let c := 1 - 2 * (qx * qx)
  let s := 2 * (qx * qw)
  let halfY := |c| * (rampHeight / 2) + |s| * (rampLength / 2)
  let halfZ := |s| * (rampHeight / 2) + |c| * (rampLength / 2)
  let position : Vector3 α := ⟨x, rampHeight / 2, z⟩
  { position := position
    quaternion := ⟨qx, 0, 0, qw⟩
    aabb := ⟨⟨x - rampWidth / 2, position.y - halfY, z - halfZ⟩,
             ⟨x + rampWidth / 2, position.y + halfY, z + halfZ⟩⟩ }

/-- Function `getRampPlane` (lines 205-209). -/
def getRampPlane (rampMesh : Ramp α) : Plane α :=
  { normal := Vector3.applyQuaternion ⟨0, 1, 0⟩ rampMesh.quaternion
    point := rampMesh.position }

/-- Function `planeHeightAtXZ` (lines 210-215); `none` stands for `null`. -/
def planeHeightAtXZ (plane : Plane α) (x z : α) : Option α :=
  let nx := plane.normal.x
  let ny := plane.normal.y
  let nz := plane.normal.z
  let px := plane.point.x
  let py := plane.point.y
  let pz := plane.point.z
  if |ny| < 1e-6 then none
  else some (py - (nx * (x - px) + nz * (z - pz)) / ny)

/-! ## The frame routine `resolveCollisionsAndMove` (lines 220-305), stage by stage -/

/-- Lines 223-225: the local `forwardAccel`. -/
def forwardAccel (keys : Keys) : α :=
  let a0 : α := 0
  let a1 := if keys.ArrowUp || keys.KeyW then a0 + accelerationRate else a0
  if keys.ArrowDown || keys.KeyS then a1 - brakingRate else a1

/-- Lines 227-229: the local `turn`. -/
def turn (keys : Keys) : α :=
  let t0 : α := 0
  let t1 := if keys.ArrowLeft || keys.KeyA then t0 + 0.035 else t0
  if keys.ArrowRight || keys.KeyD then t1 - 0.035 else t1

/-- Function `Math.sign`. -/
def sign (x : α) : α := if 0 < x then 1 else if x < 0 then -1 else 0

/-- Lines 221 and 231-235: the value of `car.rotation.y` after the steering update. -/
def steer (M : JSMath α) (keys : Keys) (car : Car α) : α :=
  let forwardLocal := Vector3.applyQuaternion ⟨0, 0, -1⟩ (carQuaternion M car.rotationY)
  let speedForward := car.velocity.dot forwardLocal
  if |speedForward| > 0.02 then
    let yaw := turn keys * sign speedForward * min 1 (|speedForward| / maxSpeed)
    car.rotationY + yaw
  else car.rotationY

/-- Lines 237-241: acceleration along the (new) heading, drag, and the clamp of the whole
vector to `maxSpeed`. -/
def updateVelocity (M : JSMath α) (keys : Keys) (rotationY : α) (velocity : Vector3 α) :
    Vector3 α :=
  let forward := Vector3.applyQuaternion ⟨0, 0, -1⟩ (carQuaternion M rotationY)
  let v1 := velocity.add (forward.multiplyScalar (forwardAccel keys))
  let v2 := v1.multiplyScalar airDrag
  if v2.length M.sqrt > maxSpeed then v2.setLength M.sqrt maxSpeed else v2

/-- Lines 243-246: the jump trigger. -/
def jumpTrigger (keys : Keys) (positionY : α) (velocity : Vector3 α) : Vector3 α :=
  if (keys.Space || keys.Spacebar) ∧ positionY ≤ carHeight / 2 + 0.01 then
    { velocity with y := velocity.y + jumpForce }
  else velocity

/-- Lines 251-258: the loop over `obstacles` that selects `combinedMTV`, started from the
value `combinedMTV` of the variable. -/
def combineMTV (sqrt : α → α) (carAABB : Box3 α) (combinedMTV : Vector3 α) :
    List (Box3 α) → Vector3 α
  | [] => combinedMTV
  | objBox :: rest =>
    if carAABB.intersectsBox objBox then
      match getMTV carAABB objBox with
      | some mtv =>
        if mtv.length sqrt > combinedMTV.length sqrt then combineMTV sqrt carAABB mtv rest
        else combineMTV sqrt carAABB combinedMTV rest
      | none => combineMTV sqrt carAABB combinedMTV rest
    else combineMTV sqrt carAABB combinedMTV rest

/-- Lines 262-272: the velocity after a collision whose selected vector is `combinedMTV`:
reflection on the dominant axis, then projection on the plane normal to `combinedMTV`. -/
def collisionVelocity (sqrt : α → α) (restitution : α) (velocity combinedMTV : Vector3 α) :
    Vector3 α :=
  let absMtv : Vector3 α := ⟨|combinedMTV.x|, |combinedMTV.y|, |combinedMTV.z|⟩
  let collisionAxis : Vector3 α :=
    if absMtv.x ≥ absMtv.y ∧ absMtv.x ≥ absMtv.z then ⟨1, 0, 0⟩
    else if absMtv.y ≥ absMtv.x ∧ absMtv.y ≥ absMtv.z then ⟨0, 1, 0⟩
    else ⟨0, 0, 1⟩
  let speedAlongAxis := velocity.dot collisionAxis
  let v1 :=
    if speedAlongAxis > 0 then
      velocity.add (collisionAxis.multiplyScalar (-(1 + restitution) * speedAlongAxis))
    else velocity
  let mtvDir := combinedMTV.normalize sqrt
  projectVectorOnPlane sqrt v1 mtvDir

/-- The box `boxFromCenterAndSize(center, new THREE.Vector3(carWidth, carHeight, carLength))`
of line 249: the car's bounding box when its centre is at `center`. -/
def carBox (center : Vector3 α) : Box3 α :=
  boxFromCenterAndSize center ⟨carWidth, carHeight, carLength⟩

/-- Line 248: the local `nextPos`, the tentative position. -/
def nextPos (dt : α) (position velocity : Vector3 α) : Vector3 α :=
  position.add (velocity.multiplyScalar (dt / deltaTime))

/-- Lines 248-275: the collision step.  Returns `car.position` and `velocity` as they stand
at line 276. -/
def collisionStep (sqrt : α → α) (obstacles : List (Box3 α)) (dt : α)
    (position velocity : Vector3 α) : Vector3 α × Vector3 α :=
  let nextPos := nextPos dt position velocity
  let carAABB := carBox nextPos
  let combinedMTV := combineMTV sqrt carAABB ⟨0, 0, 0⟩ obstacles
  if combinedMTV.lengthSq > 0 then
    (position.add combinedMTV, collisionVelocity sqrt restitution velocity combinedMTV)
  else (nextPos, velocity)

/-- Function `THREE.MathUtils.lerp`. -/
def lerp (x y t : α) : α := (1 - t) * x + t * y

/-- Lines 281-283: the local `rampBox`, the ramp's bounding box widened by 0.5 in x and z. -/
def rampBox (r : Ramp α) : Box3 α :=
  ⟨⟨r.aabb.min.x - 0.5, r.aabb.min.y, r.aabb.min.z - 0.5⟩,
   ⟨r.aabb.max.x + 0.5, r.aabb.max.y, r.aabb.max.z + 0.5⟩⟩

/-- Line 285: the local `carFootAABB`, a thin box at ground level under the car. -/
def carFootAABB (position : Vector3 α) : Box3 α :=
  boxFromCenterAndSize ⟨position.x, 0, position.z⟩ ⟨carWidth, 0.1, carLength⟩

/-- Lines 280-298: the loop over `ramps`.  Returns `car.position`, `velocity` and the flag
`onAnyRamp` as they stand at line 299. -/
def rampLoop (position velocity : Vector3 α) : List (Ramp α) → Vector3 α × Vector3 α × Bool
  | [] => (position, velocity, false)
  | r :: rest =>
    if (carFootAABB position).intersectsBox (rampBox r) then
      match planeHeightAtXZ (getRampPlane r) position.x position.z with
      | some targetY =>
        let desiredY := targetY + carHeight / 2
        if position.y < desiredY - 0.001 then
          ({ position with y := desiredY }, { velocity with y := 0 }, true)
        else
          ({ position with y := lerp position.y desiredY 0.3 }, { velocity with y := 0 }, true)
      | none => rampLoop position velocity rest
    else rampLoop position velocity rest

/-- Lines 300-304: gravity, vertical move and ground clamp, run when no ramp matched. -/
def verticalIntegrator (dt : α) (position velocity : Vector3 α) : Vector3 α × Vector3 α :=
  let vy := velocity.y + gravity * (dt / deltaTime)
  let py := position.y + vy * (dt / deltaTime)
  if py < carHeight / 2 then
    ({ position with y := carHeight / 2 }, { velocity with y := 0 })
  else ({ position with y := py }, { velocity with y := vy })

/-- Lines 220-275: the state at line 276, after steering, velocity update, jump trigger and
collision step. -/
def afterCollision (M : JSMath α) (world : World α) (keys : Keys) (dt : α) (car : Car α) :
    Car α :=
  let rotationY := steer M keys car
  let v := updateVelocity M keys rotationY car.velocity
  let v := jumpTrigger keys car.position.y v
  let r := collisionStep M.sqrt world.obstacles dt car.position v
  ⟨r.1, rotationY, r.2⟩

/-- Function `resolveCollisionsAndMove` (lines 220-305): one frame. -/
def resolveCollisionsAndMove (M : JSMath α) (world : World α) (keys : Keys) (dt : α)
    (car : Car α) : Car α :=
  let c := afterCollision M world keys dt car
  let r := rampLoop c.position c.velocity world.ramps
  if r.2.2 then ⟨r.1, c.rotationY, r.2.1⟩
  else
    let g := verticalIntegrator dt r.1 r.2.1
    ⟨g.1, c.rotationY, g.2⟩

/-- The frame routine called once per entry of `dts`, in order, with the same keys held. -/
def simulate (M : JSMath α) (world : World α) (keys : Keys) (dts : List α) (car : Car α) :
    Car α :=
  dts.foldl (fun c dt => resolveCollisionsAndMove M world keys dt c) car

/-- The earlier version of the program, `src/main.js`, lines 49-52 of `animate`: the local
`acceleration`, assigned (not summed) from the same keys, with that file's
`accelerationRate = 0.01`. -/
def legacyAcceleration (keys : Keys) : α :=
  let a0 : α := 0
  let a1 := if keys.ArrowUp || keys.KeyW then 0.01 else a0
  if keys.ArrowDown || keys.KeyS then -0.01 else a1

/-- The `keys` table with no key held. -/
def noKeys : Keys := ⟨false, false, false, false, false, false, false, false, false, false⟩

/-- Whether the Jump control is held: the condition `keys['Space'] || keys['Spacebar']`. -/
def Keys.jump (keys : Keys) : Bool := keys.Space || keys.Spacebar

/-- Whether the Accelerate control is held: `keys['ArrowUp'] || keys['KeyW']`. -/
def Keys.accelerate (keys : Keys) : Bool := keys.ArrowUp || keys.KeyW

/-- Whether the Brake control is held: `keys['ArrowDown'] || keys['KeyS']`. -/
def Keys.brake (keys : Keys) : Bool := keys.ArrowDown || keys.KeyS

/-- The first ramp of the list that the loop of lines 280-298 accepts at `position`: its
widened box meets the car's footprint and `planeHeightAtXZ` is not `null` there. -/
def matchedRamp (position : Vector3 α) (ramps : List (Ramp α)) : Option (Ramp α) :=
  ramps.find? fun r =>
    (carFootAABB position).intersectsBox (rampBox r) &&
      (planeHeightAtXZ (getRampPlane r) position.x position.z).isSome

/-- A computable instance of the library functions on `ℚ`: `Rat.sqrt` (exact on squares of
rationals) and the degree-5 and degree-4 Taylor polynomials of sine and cosine (exact at 0). -/
def ratMath : JSMath ℚ :=
  ⟨Rat.sqrt, fun t => t - t ^ 3 / 6 + t ^ 5 / 120, fun t => 1 - t ^ 2 / 2 + t ^ 4 / 24⟩

end Model

section Predicates

variable {α : Type} [LinearOrderedField α]

/-- A vector along one coordinate axis: exactly one component is not zero. -/
def AxisAligned (m : Vector3 α) : Prop :=
  (m.x ≠ 0 ∧ m.y = 0 ∧ m.z = 0) ∨ (m.x = 0 ∧ m.y ≠ 0 ∧ m.z = 0) ∨
    (m.x = 0 ∧ m.y = 0 ∧ m.z ≠ 0)

instance (m : Vector3 α) : Decidable (AxisAligned m) := by
  unfold AxisAligned; infer_instance

end Predicates

section Staggered

variable {α : Type} [LinearOrderedField α]

/-- Along the x axis neither box's extent lies strictly inside the other's: one box starts
and ends no later than the other. -/
def StaggeredX (a b : Box3 α) : Prop :=
  (a.min.x ≤ b.min.x ∧ a.max.x ≤ b.max.x) ∨ (b.min.x ≤ a.min.x ∧ b.max.x ≤ a.max.x)

/-- Along the y axis neither box's extent lies strictly inside the other's. -/
def StaggeredY (a b : Box3 α) : Prop :=
  (a.min.y ≤ b.min.y ∧ a.max.y ≤ b.max.y) ∨ (b.min.y ≤ a.min.y ∧ b.max.y ≤ a.max.y)

/-- Along the z axis neither box's extent lies strictly inside the other's. -/
def StaggeredZ (a b : Box3 α) : Prop :=
  (a.min.z ≤ b.min.z ∧ a.max.z ≤ b.max.z) ∨ (b.min.z ≤ a.min.z ∧ b.max.z ≤ a.max.z)

/-- The boxes `a` and `b` are staggered along the axis that carries the vector `m`. -/
def StaggeredAlong (m : Vector3 α) (a b : Box3 α) : Prop :=
  (m.x ≠ 0 → StaggeredX a b) ∧ (m.y ≠ 0 → StaggeredY a b) ∧ (m.z ≠ 0 → StaggeredZ a b)

instance (a b : Box3 α) : Decidable (StaggeredX a b) := by
  unfold StaggeredX; infer_instance

instance (a b : Box3 α) : Decidable (StaggeredY a b) := by
  unfold StaggeredY; infer_instance

instance (a b : Box3 α) : Decidable (StaggeredZ a b) := by
  unfold StaggeredZ; infer_instance

instance (m : Vector3 α) (a b : Box3 α) : Decidable (StaggeredAlong m a b) := by
  unfold StaggeredAlong; infer_instance

end Staggered

section SquareRoot

variable {α : Type} [LinearOrderedField α]

/-- An exact square root gives back a non-negative number from its square. -/
theorem sqrt_mul_self_of_exact {sqrt : α → α}
    (hs : ∀ x, 0 ≤ x → 0 ≤ sqrt x ∧ sqrt x * sqrt x = x) {m : α} (hm : 0 ≤ m) :
    sqrt (m * m) = m := by
  obtain ⟨h0, h1⟩ := hs (m * m) (mul_self_nonneg m)
  exact (mul_self_inj h0 hm).mp h1

theorem lengthSq_nonneg (v : Vector3 α) : 0 ≤ v.x * v.x + v.y * v.y + v.z * v.z := by
  have hx := mul_self_nonneg v.x
  have hy := mul_self_nonneg v.y
  have hz := mul_self_nonneg v.z
  linarith

/-- With an exact square root, `setLength` of a vector longer than `l ≥ 0` has length `l`. -/
theorem length_setLength {sqrt : α → α}
    (hs : ∀ x, 0 ≤ x → 0 ≤ sqrt x ∧ sqrt x * sqrt x = x) (v : Vector3 α) {l : α}
    (hl : 0 ≤ l) (hv : l < v.length sqrt) : (v.setLength sqrt l).length sqrt = l := by
  obtain ⟨h0, h1⟩ := hs _ (lengthSq_nonneg v)
  have hL : v.length sqrt ≠ 0 := ne_of_gt (lt_of_le_of_lt hl hv)
  have hL2 : v.length sqrt * v.length sqrt = v.x * v.x + v.y * v.y + v.z * v.z := h1
  have key : (v.setLength sqrt l).x * (v.setLength sqrt l).x
      + (v.setLength sqrt l).y * (v.setLength sqrt l).y
      + (v.setLength sqrt l).z * (v.setLength sqrt l).z = l * l := by
    simp only [Vector3.setLength, Vector3.normalize, Vector3.divideScalar,
      Vector3.multiplyScalar, if_neg hL]
    field_simp
    rw [hL2]
    ring
  unfold Vector3.length at *
  rw [key]
  exact sqrt_mul_self_of_exact hs hl

end SquareRoot

section InputAndSpeed

variable {α : Type} [LinearOrderedField α]

/-- C4. Speed bound: with an exact square root, the velocity left by the acceleration, drag
and clamp steps (lines 237-241) has Euclidean length at most `maxSpeed`, for every key
state, heading and incoming velocity. -/
theorem speed_bound_after_clamp (M : JSMath α)
    (hM : ∀ x, 0 ≤ x → 0 ≤ M.sqrt x ∧ M.sqrt x * M.sqrt x = x)
    (keys : Keys) (rotationY : α) (velocity : Vector3 α) :
    (updateVelocity M keys rotationY velocity).length M.sqrt ≤ maxSpeed := by
  unfold updateVelocity
  simp only []
  split_ifs with h
  · rw [length_setLength hM _ (by norm_num [maxSpeed]) h]
  · exact not_lt.mp h

/-- Witness of C4 on the real numbers, with a car heading along -z at velocity (3, 0, 4)
and Accelerate held. -/
theorem speed_bound_after_clamp_witness :
    (updateVelocity (JSMath.mk Real.sqrt Real.sin Real.cos)
        ⟨true, false, false, false, false, false, false, false, false, false⟩ 0
        ⟨3, 0, 4⟩).length Real.sqrt ≤ maxSpeed :=
  speed_bound_after_clamp (JSMath.mk Real.sqrt Real.sin Real.cos)
    (fun x hx => ⟨Real.sqrt_nonneg x, Real.mul_self_sqrt hx⟩) _ _ _

/-- C6 (amended). The jump trigger (lines 243-246) adds `jumpForce` to `velocity.y` when
Jump is held and `position.y ≤ carHeight / 2 + 0.01`, and leaves the velocity unchanged
otherwise; the x and z components are never touched. -/
theorem jumpTrigger_adds_jumpForce (keys : Keys) (positionY : α) (velocity : Vector3 α) :
    jumpTrigger keys positionY velocity =
      if keys.jump = true ∧ positionY ≤ carHeight / 2 + 0.01 then
        ⟨velocity.x, velocity.y + jumpForce, velocity.z⟩
      else velocity := by
  unfold jumpTrigger Keys.jump
  rfl

/-- C6, counterexample: a car falling at vertical velocity -0.1 through height 0.505 with
Space held leaves the trigger with `velocity.y = 0.25`, not `jumpForce = 0.35`. -/
theorem jumpTrigger_sets_counterexample :
    Keys.jump ⟨false, false, false, false, false, false, false, false, true, false⟩ = true ∧
    (0.505 : ℚ) ≤ carHeight / 2 + 0.01 ∧
    (jumpTrigger ⟨false, false, false, false, false, false, false, false, true, false⟩
        (0.505 : ℚ) ⟨0, -0.1, 0⟩).y = 0.25 ∧
    (jumpTrigger ⟨false, false, false, false, false, false, false, false, true, false⟩
        (0.505 : ℚ) ⟨0, -0.1, 0⟩).y ≠ jumpForce := by
  refine ⟨rfl, ?_, ?_, ?_⟩ <;> norm_num [jumpTrigger, carHeight, jumpForce]

/-- C10 (amended). The two contributions to `forwardAccel` (lines 223-225) are summed:
`+accelerationRate` if Accelerate is held, `-brakingRate` if Brake is held, so
`accelerationRate - brakingRate` when both are held and 0 when neither is. -/
theorem forwardAccel_sums_inputs (keys : Keys) :
    (forwardAccel keys : α) =
      (if keys.accelerate = true then accelerationRate else 0)
        - (if keys.brake = true then brakingRate else 0) := by
  unfold forwardAccel Keys.accelerate Keys.brake
  by_cases h1 : (keys.ArrowUp || keys.KeyW) = true <;>
    by_cases h2 : (keys.ArrowDown || keys.KeyS) = true <;> simp [h1, h2]

/-- The earlier `src/main.js` assigns instead of summing, and the later assignment wins:
there Brake overrides Accelerate. -/
theorem legacyAcceleration_brake_wins (keys : Keys) :
    (legacyAcceleration keys : α) =
      if keys.brake = true then -0.01 else if keys.accelerate = true then 0.01 else 0 := by
  unfold legacyAcceleration Keys.accelerate Keys.brake
  by_cases h1 : (keys.ArrowUp || keys.KeyW) = true <;>
    by_cases h2 : (keys.ArrowDown || keys.KeyS) = true <;> simp [h1, h2]

/-- C10, counterexample: with ArrowUp and ArrowDown both held, `forwardAccel` is -0.02, not
`+accelerationRate`. -/
theorem accelerate_precedence_counterexample :
    Keys.accelerate ⟨true, false, true, false, false, false, false, false, false, false⟩ = true ∧
    (forwardAccel ⟨true, false, true, false, false, false, false, false, false, false⟩ : ℚ)
      = -0.02 ∧
    (forwardAccel ⟨true, false, true, false, false, false, false, false, false, false⟩ : ℚ)
      ≠ accelerationRate := by
  refine ⟨rfl, ?_, ?_⟩ <;> norm_num [forwardAccel, accelerationRate, brakingRate]

end InputAndSpeed

section MinimumTranslation

variable {α : Type} [LinearOrderedField α]

/-- The shape of a non-null result of `getMTV`: all three overlaps are positive and the
vector carries the least of them, with the sign given by the centres, on the first axis
(in the order x, y, z) that attains it. -/
theorem getMTV_eq_some {a b : Box3 α} {m : Vector3 α} (h : getMTV a b = some m) :
    0 < min a.max.x b.max.x - max a.min.x b.min.x ∧
    0 < min a.max.y b.max.y - max a.min.y b.min.y ∧
    0 < min a.max.z b.max.z - max a.min.z b.min.z ∧
    ((m = ⟨if a.getCenter.x < b.getCenter.x
              then -(min a.max.x b.max.x - max a.min.x b.min.x)
              else min a.max.x b.max.x - max a.min.x b.min.x, 0, 0⟩) ∨
     (m = ⟨0, if a.getCenter.y < b.getCenter.y
              then -(min a.max.y b.max.y - max a.min.y b.min.y)
              else min a.max.y b.max.y - max a.min.y b.min.y, 0⟩) ∨
     (m = ⟨0, 0, if a.getCenter.z < b.getCenter.z
              then -(min a.max.z b.max.z - max a.min.z b.min.z)
              else min a.max.z b.max.z - max a.min.z b.min.z⟩)) := by
  unfold getMTV at h
  simp only [] at h
  split_ifs at h with h0
  all_goals (simp only [not_or, not_le] at h0; simp only [Option.some.injEq] at h)
  all_goals (refine ⟨h0.1, h0.2.1, h0.2.2, ?_⟩)
  all_goals (subst h; simp [*])

theorem getMTV_axisAligned {a b : Box3 α} {m : Vector3 α} (h : getMTV a b = some m) :
    AxisAligned m := by
  obtain ⟨hx, hy, hz, hm | hm | hm⟩ := getMTV_eq_some h
  · refine Or.inl ⟨?_, by rw [hm], by rw [hm]⟩
    rw [hm]; simp only []; split_ifs <;> linarith
  · refine Or.inr (Or.inl ⟨by rw [hm], ?_, by rw [hm]⟩)
    rw [hm]; simp only []; split_ifs <;> linarith
  · refine Or.inr (Or.inr ⟨by rw [hm], by rw [hm], ?_⟩)
    rw [hm]; simp only []; split_ifs <;> linarith

/-- The loop of lines 251-258 only ever stores results of `getMTV`, so the selected vector
is the starting value or lies along one axis. -/
theorem combineMTV_zero_or_axisAligned (sqrt : α → α) (carAABB : Box3 α) :
    ∀ (obstacles : List (Box3 α)) (c : Vector3 α), c = ⟨0, 0, 0⟩ ∨ AxisAligned c →
      combineMTV sqrt carAABB c obstacles = ⟨0, 0, 0⟩ ∨
        AxisAligned (combineMTV sqrt carAABB c obstacles)
  | [], c, hc => by simpa [combineMTV] using hc
  | objBox :: rest, c, hc => by
    unfold combineMTV
    split_ifs with hi
    · cases hm : getMTV carAABB objBox with
      | none => exact combineMTV_zero_or_axisAligned sqrt carAABB rest c hc
      | some mtv =>
        simp only []
        split_ifs
        · exact combineMTV_zero_or_axisAligned sqrt carAABB rest mtv
            (Or.inr (getMTV_axisAligned hm))
        · exact combineMTV_zero_or_axisAligned sqrt carAABB rest c hc
    · exact combineMTV_zero_or_axisAligned sqrt carAABB rest c hc

theorem div_abs_mul_self {c : α} (hc : c ≠ 0) : c * (1 / |c|) * (c * (1 / |c|)) = 1 := by
  have h : |c| ≠ 0 := abs_ne_zero.mpr hc
  field_simp

/-- Lines 262-272 for a vector along the x axis. -/
theorem collisionVelocity_x {sqrt : α → α} (hs : ∀ x, sqrt (x * x) = |x|)
    (restitution : α) (velocity : Vector3 α) {c : α} (hc : c ≠ 0) :
    collisionVelocity sqrt restitution velocity ⟨c, 0, 0⟩ = ⟨0, velocity.y, velocity.z⟩ := by
  have h : |c| ≠ 0 := abs_ne_zero.mpr hc
  have h1 := div_abs_mul_self hc
  have hl : sqrt (c * c + 0 * 0 + 0 * 0) = |c| := by rw [← hs c]; congr 1; ring
  have hl2 : sqrt (c * (1 / |c|) * (c * (1 / |c|)) + 0 * (1 / |c|) * (0 * (1 / |c|))
      + 0 * (1 / |c|) * (0 * (1 / |c|))) = 1 := by
    have : c * (1 / |c|) * (c * (1 / |c|)) + 0 * (1 / |c|) * (0 * (1 / |c|))
      + 0 * (1 / |c|) * (0 * (1 / |c|)) = 1 * 1 := by rw [h1]; ring
    rw [this, hs]; simp
  have ha : |c| ≥ |(0 : α)| := by simp
  simp only [collisionVelocity, projectVectorOnPlane, Vector3.normalize, Vector3.length,
    Vector3.divideScalar, Vector3.multiplyScalar, Vector3.dot, Vector3.sub, Vector3.add,
    hl, hl2, if_neg h, ha, and_self, if_true, one_ne_zero, if_false]
  generalize c * (1 / |c|) = σ at h1
  have key : ∀ A : α, A - σ * (A * σ) = 0 := fun A => by linear_combination (-A) * h1
  split_ifs <;> ext <;> simp <;> exact key _

/-- Lines 262-272 for a vector along the y axis. -/
theorem collisionVelocity_y {sqrt : α → α} (hs : ∀ x, sqrt (x * x) = |x|)
    (restitution : α) (velocity : Vector3 α) {c : α} (hc : c ≠ 0) :
    collisionVelocity sqrt restitution velocity ⟨0, c, 0⟩ = ⟨velocity.x, 0, velocity.z⟩ := by
  have h : |c| ≠ 0 := abs_ne_zero.mpr hc
  have h1 := div_abs_mul_self hc
  have hl : sqrt (0 * 0 + c * c + 0 * 0) = |c| := by rw [← hs c]; congr 1; ring
  have hl2 : sqrt (0 * (1 / |c|) * (0 * (1 / |c|)) + c * (1 / |c|) * (c * (1 / |c|))
      + 0 * (1 / |c|) * (0 * (1 / |c|))) = 1 := by
    have : 0 * (1 / |c|) * (0 * (1 / |c|)) + c * (1 / |c|) * (c * (1 / |c|))
      + 0 * (1 / |c|) * (0 * (1 / |c|)) = 1 * 1 := by rw [h1]; ring
    rw [this, hs]; simp
  have ha : ¬ (|(0 : α)| ≥ |c| ∧ |(0 : α)| ≥ |(0 : α)|) := by
    simp only [abs_zero, ge_iff_le, abs_nonpos_iff, le_refl, and_true]; exact hc
  have hb : |c| ≥ |(0 : α)| := by simp
  simp only [collisionVelocity, projectVectorOnPlane, Vector3.normalize, Vector3.length,
    Vector3.divideScalar, Vector3.multiplyScalar, Vector3.dot, Vector3.sub, Vector3.add,
    hl, hl2, if_neg h, if_neg ha, hb, and_self, if_true, one_ne_zero, if_false]
  generalize c * (1 / |c|) = σ at h1
  have key : ∀ A : α, A - σ * (A * σ) = 0 := fun A => by linear_combination (-A) * h1
  split_ifs <;> ext <;> simp <;> exact key _

/-- Lines 262-272 for a vector along the z axis. -/
theorem collisionVelocity_z {sqrt : α → α} (hs : ∀ x, sqrt (x * x) = |x|)
    (restitution : α) (velocity : Vector3 α) {c : α} (hc : c ≠ 0) :
    collisionVelocity sqrt restitution velocity ⟨0, 0, c⟩ = ⟨velocity.x, velocity.y, 0⟩ := by
  have h : |c| ≠ 0 := abs_ne_zero.mpr hc
  have h1 := div_abs_mul_self hc
  have hl : sqrt (0 * 0 + 0 * 0 + c * c) = |c| := by rw [← hs c]; congr 1; ring
  have hl2 : sqrt (0 * (1 / |c|) * (0 * (1 / |c|)) + 0 * (1 / |c|) * (0 * (1 / |c|))
      + c * (1 / |c|) * (c * (1 / |c|))) = 1 := by
    have : 0 * (1 / |c|) * (0 * (1 / |c|)) + 0 * (1 / |c|) * (0 * (1 / |c|))
      + c * (1 / |c|) * (c * (1 / |c|)) = 1 * 1 := by rw [h1]; ring
    rw [this, hs]; simp
  have ha : ¬ (|(0 : α)| ≥ |(0 : α)| ∧ |(0 : α)| ≥ |c|) := by
    simp only [abs_zero, ge_iff_le, abs_nonpos_iff, le_refl, true_and]; exact hc
  simp only [collisionVelocity, projectVectorOnPlane, Vector3.normalize, Vector3.length,
    Vector3.divideScalar, Vector3.multiplyScalar, Vector3.dot, Vector3.sub, Vector3.add,
    hl, hl2, if_neg h, if_neg ha, one_ne_zero, if_false]
  generalize c * (1 / |c|) = σ at h1
  have key : ∀ A : α, A - σ * (A * σ) = 0 := fun A => by linear_combination (-A) * h1
  split_ifs <;> ext <;> simp <;> exact key _

/-- The vector selected by the loop of lines 251-258, started from zero, is zero or lies
along one axis. -/
theorem combinedMTV_zero_or_axisAligned (sqrt : α → α) (carAABB : Box3 α)
    (obstacles : List (Box3 α)) :
    combineMTV sqrt carAABB ⟨0, 0, 0⟩ obstacles = ⟨0, 0, 0⟩ ∨
      AxisAligned (combineMTV sqrt carAABB ⟨0, 0, 0⟩ obstacles) :=
  combineMTV_zero_or_axisAligned sqrt carAABB obstacles _ (Or.inl rfl)

end MinimumTranslation

section VelocityResponse

variable {α : Type} [LinearOrderedField α]

/-- Lines 262-272 for the vector selected by the obstacle loop, when it is not zero: it lies
along one axis and the velocity loses exactly its component on that axis. -/
theorem collisionVelocity_of_combined {sqrt : α → α} (hs : ∀ x, sqrt (x * x) = |x|)
    (carAABB : Box3 α) (obstacles : List (Box3 α)) (restitution : α) (velocity : Vector3 α)
    (hnz : (combineMTV sqrt carAABB ⟨0, 0, 0⟩ obstacles).lengthSq > 0) :
    AxisAligned (combineMTV sqrt carAABB ⟨0, 0, 0⟩ obstacles) ∧
    collisionVelocity sqrt restitution velocity (combineMTV sqrt carAABB ⟨0, 0, 0⟩ obstacles) =
      ⟨if (combineMTV sqrt carAABB ⟨0, 0, 0⟩ obstacles).x ≠ 0 then 0 else velocity.x,
       if (combineMTV sqrt carAABB ⟨0, 0, 0⟩ obstacles).y ≠ 0 then 0 else velocity.y,
       if (combineMTV sqrt carAABB ⟨0, 0, 0⟩ obstacles).z ≠ 0 then 0 else velocity.z⟩ := by
  rcases combinedMTV_zero_or_axisAligned sqrt carAABB obstacles with h0 | hax
  · rw [h0] at hnz; simp [Vector3.lengthSq] at hnz
  · refine ⟨hax, ?_⟩
    generalize combineMTV sqrt carAABB ⟨0, 0, 0⟩ obstacles = c at hax
    obtain ⟨cx, cy, cz⟩ := c
    rcases hax with ⟨hx, hy, hz⟩ | ⟨hx, hy, hz⟩ | ⟨hx, hy, hz⟩ <;> simp only at hx hy hz
    · subst hy hz; rw [collisionVelocity_x hs _ _ hx]; simp [hx]
    · subst hx hz; rw [collisionVelocity_y hs _ _ hy]; simp [hy]
    · subst hx hy; rw [collisionVelocity_z hs _ _ hz]; simp [hz]

/-- C3. Collision velocity response: whenever the vector `combinedMTV` selected by the
obstacle loop is nonzero, it lies along exactly one axis, and the reflect-then-project
sequence of lines 262-272 returns the incoming velocity with the component on that axis set
to zero and the other two unchanged, for every incoming velocity and every restitution;
this is the velocity the collision step of `resolveCollisionsAndMove` leaves.  Relies on
`Math.sqrt(x * x)` being `|x|`. -/
theorem collision_velocity_response (sqrt : α → α) (hs : ∀ x, sqrt (x * x) = |x|)
    (obstacles : List (Box3 α)) (dt : α) (position velocity : Vector3 α)
    (hnz : (combineMTV sqrt (carBox (nextPos dt position velocity)) ⟨0, 0, 0⟩
      obstacles).lengthSq > 0) :
    AxisAligned (combineMTV sqrt (carBox (nextPos dt position velocity)) ⟨0, 0, 0⟩ obstacles) ∧
    (∀ r : α, collisionVelocity sqrt r velocity
        (combineMTV sqrt (carBox (nextPos dt position velocity)) ⟨0, 0, 0⟩ obstacles) =
      ⟨if (combineMTV sqrt (carBox (nextPos dt position velocity)) ⟨0, 0, 0⟩ obstacles).x ≠ 0
          then 0 else velocity.x,
       if (combineMTV sqrt (carBox (nextPos dt position velocity)) ⟨0, 0, 0⟩ obstacles).y ≠ 0
          then 0 else velocity.y,
       if (combineMTV sqrt (carBox (nextPos dt position velocity)) ⟨0, 0, 0⟩ obstacles).z ≠ 0
          then 0 else velocity.z⟩) ∧
    (collisionStep sqrt obstacles dt position velocity).2 =
      ⟨if (combineMTV sqrt (carBox (nextPos dt position velocity)) ⟨0, 0, 0⟩ obstacles).x ≠ 0
          then 0 else velocity.x,
       if (combineMTV sqrt (carBox (nextPos dt position velocity)) ⟨0, 0, 0⟩ obstacles).y ≠ 0
          then 0 else velocity.y,
       if (combineMTV sqrt (carBox (nextPos dt position velocity)) ⟨0, 0, 0⟩ obstacles).z ≠ 0
          then 0 else velocity.z⟩ := by
  refine ⟨(collisionVelocity_of_combined hs _ obstacles 0 velocity hnz).1,
    fun r => (collisionVelocity_of_combined hs _ obstacles r velocity hnz).2, ?_⟩
  simp only [collisionStep]
  rw [if_pos hnz]
  exact (collisionVelocity_of_combined hs _ obstacles restitution velocity hnz).2

end VelocityResponse

section ObstacleLoop

variable {α : Type} [LinearOrderedField α]

theorem intersectsBox_of_getMTV {a b : Box3 α} {m : Vector3 α} (h : getMTV a b = some m) :
    a.intersectsBox b = true := by
  obtain ⟨hx, hy, hz, -⟩ := getMTV_eq_some h
  have hx1 := min_le_left a.max.x b.max.x
  have hx2 := min_le_right a.max.x b.max.x
  have hx3 := le_max_left a.min.x b.min.x
  have hx4 := le_max_right a.min.x b.min.x
  have hy1 := min_le_left a.max.y b.max.y
  have hy2 := min_le_right a.max.y b.max.y
  have hy3 := le_max_left a.min.y b.min.y
  have hy4 := le_max_right a.min.y b.min.y
  have hz1 := min_le_left a.max.z b.max.z
  have hz2 := min_le_right a.max.z b.max.z
  have hz3 := le_max_left a.min.z b.min.z
  have hz4 := le_max_right a.min.z b.min.z
  simp only [Box3.intersectsBox, decide_eq_true_eq, ge_iff_le]
  refine ⟨?_, ?_, ?_, ?_, ?_, ?_⟩ <;> linarith

theorem length_zero {sqrt : α → α} (hs : ∀ x, sqrt (x * x) = |x|) :
    (⟨0, 0, 0⟩ : Vector3 α).length sqrt = 0 := by
  have := hs 0
  simp only [Vector3.length, mul_zero, add_zero, abs_zero] at *
  exact this

theorem length_pos_of_axisAligned {sqrt : α → α} (hs : ∀ x, sqrt (x * x) = |x|)
    {m : Vector3 α} (hm : AxisAligned m) : 0 < m.length sqrt := by
  obtain ⟨mx, my, mz⟩ := m
  rcases hm with ⟨hx, hy, hz⟩ | ⟨hx, hy, hz⟩ | ⟨hx, hy, hz⟩ <;> simp only at hx hy hz
  · subst hy hz
    simp only [Vector3.length, mul_zero, add_zero, hs]; exact abs_pos.mpr hx
  · subst hx hz
    simp only [Vector3.length, mul_zero, add_zero, zero_add, hs]; exact abs_pos.mpr hy
  · subst hx hy
    simp only [Vector3.length, mul_zero, add_zero, zero_add, hs]; exact abs_pos.mpr hz

theorem lengthSq_pos_of_axisAligned {m : Vector3 α} (hm : AxisAligned m) : 0 < m.lengthSq := by
  obtain ⟨mx, my, mz⟩ := m
  have h1 := mul_self_nonneg mx
  have h2 := mul_self_nonneg my
  have h3 := mul_self_nonneg mz
  rcases hm with ⟨hx, hy, hz⟩ | ⟨hx, hy, hz⟩ | ⟨hx, hy, hz⟩ <;> simp only at hx hy hz
  · have := mul_self_pos.mpr hx; simp only [Vector3.lengthSq]; linarith
  · have := mul_self_pos.mpr hy; simp only [Vector3.lengthSq]; linarith
  · have := mul_self_pos.mpr hz; simp only [Vector3.lengthSq]; linarith

/-- The loop of lines 251-258 over a single obstacle that `getMTV` separates from the car
box selects that obstacle's vector. -/
theorem combineMTV_single {sqrt : α → α} (hs : ∀ x, sqrt (x * x) = |x|) {a b : Box3 α}
    {m : Vector3 α} (h : getMTV a b = some m) : combineMTV sqrt a ⟨0, 0, 0⟩ [b] = m := by
  have hpos := length_pos_of_axisAligned hs (getMTV_axisAligned h)
  simp only [combineMTV, intersectsBox_of_getMTV h, if_true, h, length_zero hs]
  rw [if_pos hpos]

/-- The loop of lines 251-258 leaves its starting value when `getMTV` is `null` for every
obstacle. -/
theorem combineMTV_of_clear (sqrt : α → α) (a : Box3 α) (c : Vector3 α) :
    ∀ obstacles : List (Box3 α), (∀ b ∈ obstacles, getMTV a b = none) →
      combineMTV sqrt a c obstacles = c
  | [], _ => rfl
  | b :: rest, h => by
    have hb : getMTV a b = none := h b (List.mem_cons_self _ _)
    have hr := combineMTV_of_clear sqrt a c rest
      (fun b' hb' => h b' (List.mem_cons_of_mem _ hb'))
    unfold combineMTV
    simp only [hb, hr, ite_self]

/-- The collision step against a single obstacle that `getMTV` separates from the tentative
car box: the vector is added to the position the car had before the move. -/
theorem collisionStep_single {sqrt : α → α} (hs : ∀ x, sqrt (x * x) = |x|)
    (objBox : Box3 α) (dt : α) (position velocity : Vector3 α) {m : Vector3 α}
    (h : getMTV (carBox (nextPos dt position velocity)) objBox = some m) :
    collisionStep sqrt [objBox] dt position velocity =
      (position.add m, collisionVelocity sqrt restitution velocity m) := by
  have hpos := lengthSq_pos_of_axisAligned (getMTV_axisAligned h)
  simp only [collisionStep, combineMTV_single hs h]
  rw [if_pos hpos]

/-- The collision step when `getMTV` is `null` for every obstacle: the car moves to the
tentative position and keeps its velocity. -/
theorem collisionStep_of_clear (sqrt : α → α) (obstacles : List (Box3 α)) (dt : α)
    (position velocity : Vector3 α)
    (h : ∀ b ∈ obstacles, getMTV (carBox (nextPos dt position velocity)) b = none) :
    collisionStep sqrt obstacles dt position velocity =
      (nextPos dt position velocity, velocity) := by
  simp only [collisionStep, combineMTV_of_clear sqrt _ _ obstacles h]
  simp [Vector3.lengthSq]

end ObstacleLoop

section Resolution

variable {α : Type} [LinearOrderedField α]

theorem getMTV_eq_none_of_overlap {a b : Box3 α}
    (h : min a.max.x b.max.x - max a.min.x b.min.x ≤ 0 ∨
         min a.max.y b.max.y - max a.min.y b.min.y ≤ 0 ∨
         min a.max.z b.max.z - max a.min.z b.min.z ≤ 0) : getMTV a b = none := by
  unfold getMTV
  simp only []
  rw [if_pos h]

/-- One axis of the resolution: two intervals with positive overlap `ov`, staggered, the
first pushed by `ov` away from the other's centre and moved back by a displacement `d` that
does not point along the push, no longer overlap. -/
theorem overlap_resolved {amin amax bmin bmax d push : α}
    (hpos : 0 < min amax bmax - max amin bmin)
    (hst : (amin ≤ bmin ∧ amax ≤ bmax) ∨ (bmin ≤ amin ∧ bmax ≤ amax))
    (hpush : push = if (amin + amax) * 0.5 < (bmin + bmax) * 0.5
      then -(min amax bmax - max amin bmin) else min amax bmax - max amin bmin)
    (hd : push * d ≤ 0) :
    min (amax + push - d) bmax - max (amin + push - d) bmin ≤ 0 := by
  have e1 := min_le_left (amax + push - d) bmax
  have e2 := min_le_right (amax + push - d) bmax
  have e3 := le_max_left (amin + push - d) bmin
  have e4 := le_max_right (amin + push - d) bmin
  rcases hst with ⟨h1, h2⟩ | ⟨h1, h2⟩
  · rw [min_eq_left h2, max_eq_right h1] at hpos hpush
    split_ifs at hpush with hc
    · have hd' : 0 ≤ d := by
        by_contra hneg
        push_neg at hneg
        have : 0 < push * d := by rw [hpush]; nlinarith
        linarith
      linarith
    · have hc' : bmin + bmax ≤ amin + amax := by
        have := not_lt.mp hc
        norm_num at this
        linarith
      have hd' : d ≤ 0 := by
        by_contra hneg
        push_neg at hneg
        have : 0 < push * d := by rw [hpush]; nlinarith
        linarith
      linarith
  · rw [min_eq_right h2, max_eq_left h1] at hpos hpush
    split_ifs at hpush with hc
    · have hc' : amin + amax < bmin + bmax := by
        norm_num at hc
        linarith
      linarith
    · have hd' : d ≤ 0 := by
        by_contra hneg
        push_neg at hneg
        have : 0 < push * d := by rw [hpush]; nlinarith
        linarith
      linarith

theorem getCenter_of_getMTV {a b : Box3 α} {m : Vector3 α} (h : getMTV a b = some m) :
    a.getCenter = (a.min.add a.max).multiplyScalar 0.5 ∧
    b.getCenter = (b.min.add b.max).multiplyScalar 0.5 := by
  obtain ⟨hx, hy, hz, -⟩ := getMTV_eq_some h
  have hx1 := min_le_left a.max.x b.max.x
  have hx2 := min_le_right a.max.x b.max.x
  have hx3 := le_max_left a.min.x b.min.x
  have hx4 := le_max_right a.min.x b.min.x
  have hy1 := min_le_left a.max.y b.max.y
  have hy2 := min_le_right a.max.y b.max.y
  have hy3 := le_max_left a.min.y b.min.y
  have hy4 := le_max_right a.min.y b.min.y
  have hz1 := min_le_left a.max.z b.max.z
  have hz2 := min_le_right a.max.z b.max.z
  have hz3 := le_max_left a.min.z b.min.z
  have hz4 := le_max_right a.min.z b.min.z
  have ha : a.isEmpty = false := by
    simp only [Box3.isEmpty, decide_eq_false_iff_not, not_or, not_lt]
    refine ⟨?_, ?_, ?_⟩ <;> linarith
  have hb : b.isEmpty = false := by
    simp only [Box3.isEmpty, decide_eq_false_iff_not, not_or, not_lt]
    refine ⟨?_, ?_, ?_⟩ <;> linarith
  simp [Box3.getCenter, ha, hb]

end Resolution

section NonPenetration

variable {α : Type} [LinearOrderedField α]

/-- C1 (amended). Non-penetration against a single obstacle: if `getMTV` separates the car
box at the tentative position from the obstacle's box with vector `mtv`, the two boxes are
staggered along the axis of `mtv` (neither extent strictly inside the other), and the
frame's displacement has no component along `mtv`, then the position left by the collision
step has a car box that does not overlap the obstacle's box: `getMTV` is `null`.  Relies on
`Math.sqrt(x * x)` being `|x|`. -/
theorem non_penetration_single_obstacle (sqrt : α → α) (hs : ∀ x, sqrt (x * x) = |x|)
    (position velocity : Vector3 α) (dt : α) (objBox : Box3 α) (mtv : Vector3 α)
    (hov : getMTV (carBox (nextPos dt position velocity)) objBox = some mtv)
    (hst : StaggeredAlong mtv (carBox (nextPos dt position velocity)) objBox)
    (hdir : mtv.dot (velocity.multiplyScalar (dt / deltaTime)) ≤ 0) :
    getMTV (carBox (collisionStep sqrt [objBox] dt position velocity).1) objBox = none := by
  rw [collisionStep_single hs objBox dt position velocity hov]
  obtain ⟨hx, hy, hz, hm⟩ := getMTV_eq_some hov
  obtain ⟨hca, hcb⟩ := getCenter_of_getMTV hov
  have hax := getMTV_axisAligned hov
  rw [hca, hcb] at hm
  apply getMTV_eq_none_of_overlap
  rcases hm with hm | hm | hm
  · left
    have hne : mtv.x ≠ 0 := by
      rcases hax with h | h | h
      · exact h.1
      · rw [hm] at h; exact absurd rfl h.2.1
      · rw [hm] at h; exact absurd rfl h.2.2
    have hpush : mtv.x = _ := congrArg Vector3.x hm
    have hd : mtv.x * (velocity.x * (dt / deltaTime)) ≤ 0 := by
      have h1 : mtv.y = 0 := by rw [hm]
      have h2 : mtv.z = 0 := by rw [hm]
      simpa [Vector3.dot, Vector3.multiplyScalar, h1, h2] using hdir
    have := overlap_resolved hx (hst.1 hne) hpush hd
    simp only [carBox, boxFromCenterAndSize, nextPos, Vector3.add, Vector3.multiplyScalar] at this ⊢
    convert this using 3 <;> ring
  · right; left
    have hne : mtv.y ≠ 0 := by
      rcases hax with h | h | h
      · rw [hm] at h; exact absurd rfl h.1
      · exact h.2.1
      · rw [hm] at h; exact absurd rfl h.2.2
    have hpush : mtv.y = _ := congrArg Vector3.y hm
    have hd : mtv.y * (velocity.y * (dt / deltaTime)) ≤ 0 := by
      have h1 : mtv.x = 0 := by rw [hm]
      have h2 : mtv.z = 0 := by rw [hm]
      simpa [Vector3.dot, Vector3.multiplyScalar, h1, h2] using hdir
    have := overlap_resolved hy (hst.2.1 hne) hpush hd
    simp only [carBox, boxFromCenterAndSize, nextPos, Vector3.add, Vector3.multiplyScalar] at this ⊢
    convert this using 3 <;> ring
  · right; right
    have hne : mtv.z ≠ 0 := by
      rcases hax with h | h | h
      · rw [hm] at h; exact absurd rfl h.1
      · rw [hm] at h; exact absurd rfl h.2.1
      · exact h.2.2
    have hpush : mtv.z = _ := congrArg Vector3.z hm
    have hd : mtv.z * (velocity.z * (dt / deltaTime)) ≤ 0 := by
      have h1 : mtv.x = 0 := by rw [hm]
      have h2 : mtv.y = 0 := by rw [hm]
      simpa [Vector3.dot, Vector3.multiplyScalar, h1, h2] using hdir
    have := overlap_resolved hz (hst.2.2 hne) hpush hd
    simp only [carBox, boxFromCenterAndSize, nextPos, Vector3.add, Vector3.multiplyScalar] at this ⊢
    convert this using 3 <;> ring

end NonPenetration

section HeadOn

variable {α : Type} [LinearOrderedField α]

/-- Head-on contact along +z, in general: when `getMTV` pushes the tentative car box back
along z and that box does not reach past the wall's far face, the collision step leaves the
car box's `max.z` face short of the wall's `min.z` face by the displacement of the frame,
`velocity.z * (dt / deltaTime)`. -/
theorem collisionStep_headOn_face {sqrt : α → α} (hs : ∀ x, sqrt (x * x) = |x|)
    (wall : Box3 α) (dt : α) (position velocity : Vector3 α) {mz : α}
    (h : getMTV (carBox (nextPos dt position velocity)) wall = some ⟨0, 0, mz⟩)
    (hneg : mz < 0)
    (hmin : (carBox (nextPos dt position velocity)).min.z ≤ wall.min.z)
    (hmax : (carBox (nextPos dt position velocity)).max.z ≤ wall.max.z) :
    (carBox (collisionStep sqrt [wall] dt position velocity).1).max.z =
      wall.min.z - velocity.z * (dt / deltaTime) := by
  rw [collisionStep_single hs wall dt position velocity h]
  obtain ⟨hx, hy, hz, hm⟩ := getMTV_eq_some h
  have hmz : mz = -(min (carBox (nextPos dt position velocity)).max.z wall.max.z
      - max (carBox (nextPos dt position velocity)).min.z wall.min.z) := by
    rcases hm with hm | hm | hm
    · have := congrArg Vector3.z hm; simp only at this; linarith
    · have := congrArg Vector3.z hm; simp only at this; linarith
    · have := congrArg Vector3.z hm
      simp only at this
      split_ifs at this with hc
      · exact this
      · linarith
  rw [min_eq_left hmax, max_eq_right hmin] at hmz
  simp only [carBox, boxFromCenterAndSize, nextPos, Vector3.add, Vector3.multiplyScalar]
    at hmz ⊢
  linarith

end HeadOn

section CollisionCases

/-- C1, counterexample: the car at rest at (10, 0.5, 10), straddling the cone of
`addCone(10, 10)` whose box is [9.5, 10.5] × [0, 2] × [9.5, 10.5].  `getMTV` returns
(1, 0, 0) and after the collision step the car box still overlaps the cone's box:
`getMTV` returns (0.5, 0, 0), not `null`. -/
theorem non_penetration_counterexample :
    getMTV (carBox (nextPos (1 / 60) (⟨10, 0.5, 10⟩ : Vector3 ℚ) ⟨0, 0, 0⟩))
      ⟨⟨9.5, 0, 9.5⟩, ⟨10.5, 2, 10.5⟩⟩ = some ⟨1, 0, 0⟩ ∧
    getMTV (carBox (collisionStep Rat.sqrt [⟨⟨9.5, 0, 9.5⟩, ⟨10.5, 2, 10.5⟩⟩] (1 / 60)
        (⟨10, 0.5, 10⟩ : Vector3 ℚ) ⟨0, 0, 0⟩).1)
      ⟨⟨9.5, 0, 9.5⟩, ⟨10.5, 2, 10.5⟩⟩ = some ⟨0.5, 0, 0⟩ := by
  have h : getMTV (carBox (nextPos (1 / 60) (⟨10, 0.5, 10⟩ : Vector3 ℚ) ⟨0, 0, 0⟩))
      ⟨⟨9.5, 0, 9.5⟩, ⟨10.5, 2, 10.5⟩⟩ = some ⟨1, 0, 0⟩ := by
    norm_num [getMTV, carBox, nextPos, boxFromCenterAndSize, Vector3.multiplyScalar,
      Box3.getCenter, Box3.isEmpty, Vector3.add, carWidth, carHeight, carLength, deltaTime]
  refine ⟨h, ?_⟩
  rw [collisionStep_single Rat.sqrt_eq _ _ _ _ h]
  norm_num [getMTV, carBox, boxFromCenterAndSize, Vector3.multiplyScalar,
    Box3.getCenter, Box3.isEmpty, Vector3.add, carWidth, carHeight, carLength]

/-- Witness of C1 (amended): the car at (0, 0.5, 47.2) driving at (0, 0, 0.6) into the wall
`createWall(100, 5, 1, 0, 2.5, 50)` for one reference frame. -/
theorem non_penetration_single_obstacle_witness :
    getMTV (carBox (nextPos (1 / 60) (⟨0, 0.5, 47.2⟩ : Vector3 ℚ) ⟨0, 0, 0.6⟩))
      (boxFromCenterAndSize ⟨0, 2.5, 50⟩ ⟨100, 5, 1⟩) = some ⟨0, 0, -0.3⟩ ∧
    StaggeredAlong (⟨0, 0, -0.3⟩ : Vector3 ℚ)
      (carBox (nextPos (1 / 60) (⟨0, 0.5, 47.2⟩ : Vector3 ℚ) ⟨0, 0, 0.6⟩))
      (boxFromCenterAndSize ⟨0, 2.5, 50⟩ ⟨100, 5, 1⟩) ∧
    (⟨0, 0, -0.3⟩ : Vector3 ℚ).dot
      ((⟨0, 0, 0.6⟩ : Vector3 ℚ).multiplyScalar (1 / 60 / deltaTime)) ≤ 0 ∧
    getMTV (carBox (collisionStep Rat.sqrt [boxFromCenterAndSize ⟨0, 2.5, 50⟩ ⟨100, 5, 1⟩]
        (1 / 60) (⟨0, 0.5, 47.2⟩ : Vector3 ℚ) ⟨0, 0, 0.6⟩).1)
      (boxFromCenterAndSize ⟨0, 2.5, 50⟩ ⟨100, 5, 1⟩) = none := by
  have h1 : getMTV (carBox (nextPos (1 / 60) (⟨0, 0.5, 47.2⟩ : Vector3 ℚ) ⟨0, 0, 0.6⟩))
      (boxFromCenterAndSize ⟨0, 2.5, 50⟩ ⟨100, 5, 1⟩) = some ⟨0, 0, -0.3⟩ := by
    norm_num [getMTV, carBox, nextPos, boxFromCenterAndSize, Vector3.multiplyScalar,
      Box3.getCenter, Box3.isEmpty, Vector3.add, carWidth, carHeight, carLength, deltaTime]
  have h2 : StaggeredAlong (⟨0, 0, -0.3⟩ : Vector3 ℚ)
      (carBox (nextPos (1 / 60) (⟨0, 0.5, 47.2⟩ : Vector3 ℚ) ⟨0, 0, 0.6⟩))
      (boxFromCenterAndSize ⟨0, 2.5, 50⟩ ⟨100, 5, 1⟩) := by
    norm_num [StaggeredAlong, StaggeredZ, carBox, nextPos, boxFromCenterAndSize,
      Vector3.multiplyScalar, Vector3.add, carWidth, carHeight, carLength, deltaTime]
  have h3 : (⟨0, 0, -0.3⟩ : Vector3 ℚ).dot
      ((⟨0, 0, 0.6⟩ : Vector3 ℚ).multiplyScalar (1 / 60 / deltaTime)) ≤ 0 := by
    norm_num [Vector3.dot, Vector3.multiplyScalar, deltaTime]
  exact ⟨h1, h2, h3,
    non_penetration_single_obstacle Rat.sqrt Rat.sqrt_eq _ _ _ _ _ h1 h2 h3⟩

/-- C2, the code at a failing input: the car at (0, 0.5, 47.2) driving at (0, 0, 0.6) into
the wall `createWall(100, 5, 1, 0, 2.5, 50)` for one reference frame.  The tentative box
overlaps the wall by 0.3 along z, the minimum-overlap axis, with the car's centre on the
near side; the collision step leaves the car box's `max.z` face at 48.9 while the wall's
`min.z` face is at 49.5, a gap of `velocity.z * dt / deltaTime = 0.6`. -/
theorem head_on_wall_stops_short :
    getMTV (carBox (nextPos (1 / 60) (⟨0, 0.5, 47.2⟩ : Vector3 ℚ) ⟨0, 0, 0.6⟩))
      (boxFromCenterAndSize ⟨0, 2.5, 50⟩ ⟨100, 5, 1⟩) = some ⟨0, 0, -0.3⟩ ∧
    (carBox (collisionStep Rat.sqrt [boxFromCenterAndSize ⟨0, 2.5, 50⟩ ⟨100, 5, 1⟩]
        (1 / 60) (⟨0, 0.5, 47.2⟩ : Vector3 ℚ) ⟨0, 0, 0.6⟩).1).max.z = 48.9 ∧
    (boxFromCenterAndSize (⟨0, 2.5, 50⟩ : Vector3 ℚ) ⟨100, 5, 1⟩).min.z = 49.5 := by
  have h1 : getMTV (carBox (nextPos (1 / 60) (⟨0, 0.5, 47.2⟩ : Vector3 ℚ) ⟨0, 0, 0.6⟩))
      (boxFromCenterAndSize ⟨0, 2.5, 50⟩ ⟨100, 5, 1⟩) = some ⟨0, 0, -0.3⟩ := by
    norm_num [getMTV, carBox, nextPos, boxFromCenterAndSize, Vector3.multiplyScalar,
      Box3.getCenter, Box3.isEmpty, Vector3.add, carWidth, carHeight, carLength, deltaTime]
  refine ⟨h1, ?_, ?_⟩
  · rw [collisionStep_single Rat.sqrt_eq _ _ _ _ h1]
    norm_num [carBox, boxFromCenterAndSize, Vector3.multiplyScalar, Vector3.add, carLength]
  · norm_num [boxFromCenterAndSize, Vector3.multiplyScalar]

/-- Witness of C3: the car at (0, 0.5, 47.2) driving at (0.1, 0, 0.6) into the wall
`createWall(100, 5, 1, 0, 2.5, 50)` for one reference frame, with `Rat.sqrt`: the selected
vector is (0, 0, -0.3) and the velocity left is (0.1, 0, 0). -/
theorem collision_velocity_response_witness :
    (combineMTV Rat.sqrt (carBox (nextPos (1 / 60) ⟨0, 0.5, 47.2⟩ ⟨0.1, 0, 0.6⟩)) ⟨0, 0, 0⟩
        [boxFromCenterAndSize ⟨0, 2.5, 50⟩ ⟨100, 5, 1⟩]).lengthSq > 0 ∧
    (collisionStep Rat.sqrt [boxFromCenterAndSize ⟨0, 2.5, 50⟩ ⟨100, 5, 1⟩] (1 / 60)
        ⟨0, 0.5, 47.2⟩ ⟨0.1, 0, 0.6⟩).2 = ⟨0.1, 0, 0⟩ := by
  have h1 : getMTV (carBox (nextPos (1 / 60) (⟨0, 0.5, 47.2⟩ : Vector3 ℚ) ⟨0.1, 0, 0.6⟩))
      (boxFromCenterAndSize ⟨0, 2.5, 50⟩ ⟨100, 5, 1⟩) = some ⟨0, 0, -0.3⟩ := by
    norm_num [getMTV, carBox, nextPos, boxFromCenterAndSize, Vector3.multiplyScalar,
      Box3.getCenter, Box3.isEmpty, Vector3.add, carWidth, carHeight, carLength, deltaTime]
  have h2 : (combineMTV Rat.sqrt (carBox (nextPos (1 / 60) ⟨0, 0.5, 47.2⟩ ⟨0.1, 0, 0.6⟩))
      ⟨0, 0, 0⟩ [boxFromCenterAndSize ⟨0, 2.5, 50⟩ ⟨100, 5, 1⟩]).lengthSq > 0 := by
    rw [combineMTV_single Rat.sqrt_eq h1]
    norm_num [Vector3.lengthSq]
  refine ⟨h2, ?_⟩
  have h3 := (collision_velocity_response Rat.sqrt Rat.sqrt_eq
    [boxFromCenterAndSize ⟨0, 2.5, 50⟩ ⟨100, 5, 1⟩] (1 / 60) ⟨0, 0.5, 47.2⟩ ⟨0.1, 0, 0.6⟩
    h2).2.2
  rw [combineMTV_single Rat.sqrt_eq h1] at h3
  rw [h3]
  norm_num

/-- The displacement condition of the amended C1 cannot be dropped: a car at (0, 0.5, 47.9),
overlapping the wall `createWall(100, 5, 1, 0, 2.5, 50)` by 0.4 and backing away at
(0, 0, -0.2), is left overlapping it by 0.2, because the vector computed at the tentative
position is added to the position before the move. -/
theorem collisionStep_backing_away_overlap :
    getMTV (carBox (nextPos (1 / 60) (⟨0, 0.5, 47.9⟩ : Vector3 ℚ) ⟨0, 0, -0.2⟩))
      (boxFromCenterAndSize ⟨0, 2.5, 50⟩ ⟨100, 5, 1⟩) = some ⟨0, 0, -0.2⟩ ∧
    getMTV (carBox (collisionStep Rat.sqrt [boxFromCenterAndSize ⟨0, 2.5, 50⟩ ⟨100, 5, 1⟩]
        (1 / 60) (⟨0, 0.5, 47.9⟩ : Vector3 ℚ) ⟨0, 0, -0.2⟩).1)
      (boxFromCenterAndSize ⟨0, 2.5, 50⟩ ⟨100, 5, 1⟩) = some ⟨0, 0, -0.2⟩ := by
  have h : getMTV (carBox (nextPos (1 / 60) (⟨0, 0.5, 47.9⟩ : Vector3 ℚ) ⟨0, 0, -0.2⟩))
      (boxFromCenterAndSize ⟨0, 2.5, 50⟩ ⟨100, 5, 1⟩) = some ⟨0, 0, -0.2⟩ := by
    norm_num [getMTV, carBox, nextPos, boxFromCenterAndSize, Vector3.multiplyScalar,
      Box3.getCenter, Box3.isEmpty, Vector3.add, carWidth, carHeight, carLength, deltaTime]
  refine ⟨h, ?_⟩
  rw [collisionStep_single Rat.sqrt_eq _ _ _ _ h]
  norm_num [getMTV, carBox, boxFromCenterAndSize, Vector3.multiplyScalar,
    Box3.getCenter, Box3.isEmpty, Vector3.add, carWidth, carHeight, carLength]

end CollisionCases

section AtRest

variable {α : Type} [LinearOrderedField α]

theorem steer_of_rest (M : JSMath α) (keys : Keys) (car : Car α)
    (hv : car.velocity = ⟨0, 0, 0⟩) : steer M keys car = car.rotationY := by
  simp [steer, hv, Vector3.dot]

theorem forwardAccel_eq_zero {keys : Keys} (ha : keys.accelerate = false)
    (hb : keys.brake = false) : (forwardAccel keys : α) = 0 := by
  simp only [Keys.accelerate, Keys.brake] at ha hb
  simp [forwardAccel, ha, hb]

theorem updateVelocity_of_rest (M : JSMath α) {keys : Keys}
    (ha : (forwardAccel keys : α) = 0) (rotationY : α) :
    updateVelocity M keys rotationY ⟨0, 0, 0⟩ = ⟨0, 0, 0⟩ := by
  simp only [updateVelocity, ha, Vector3.multiplyScalar, Vector3.add, Vector3.setLength,
    Vector3.normalize, Vector3.divideScalar, mul_zero, zero_mul, add_zero, ite_self]

/-- The state at line 276 for a car at rest with neither Accelerate nor Brake held: the
heading is kept and the collision step runs on the velocity left by the jump trigger. -/
theorem afterCollision_of_rest (M : JSMath α) (world : World α) {keys : Keys} (dt : α)
    (car : Car α) (hv : car.velocity = ⟨0, 0, 0⟩) (ha : (forwardAccel keys : α) = 0) :
    afterCollision M world keys dt car =
      ⟨(collisionStep M.sqrt world.obstacles dt car.position
          (jumpTrigger keys car.position.y ⟨0, 0, 0⟩)).1,
       car.rotationY,
       (collisionStep M.sqrt world.obstacles dt car.position
          (jumpTrigger keys car.position.y ⟨0, 0, 0⟩)).2⟩ := by
  simp only [afterCollision, steer_of_rest M keys car hv, hv, updateVelocity_of_rest M ha]

theorem rampLoop_of_no_intersect (position velocity : Vector3 α) :
    ∀ ramps : List (Ramp α),
      (∀ r ∈ ramps, (carFootAABB position).intersectsBox (rampBox r) = false) →
      rampLoop position velocity ramps = (position, velocity, false)
  | [], _ => rfl
  | r :: rest, h => by
    have hr := h r (List.mem_cons_self _ _)
    have ih := rampLoop_of_no_intersect position velocity rest
      (fun r' hr' => h r' (List.mem_cons_of_mem _ hr'))
    unfold rampLoop
    simp [hr, ih]

/-- The loop of lines 280-298 when a ramp is matched: it stops at the first ramp whose
widened box meets the footprint and whose plane gives a height, and sets the height to the
target (when more than 0.001 below it) or blends it 0.3 of the way, with `velocity.y = 0`
and `onAnyRamp = true`. -/
theorem rampLoop_of_matched (position velocity : Vector3 α) :
    ∀ (ramps : List (Ramp α)) (r : Ramp α) (targetY : α),
      matchedRamp position ramps = some r →
      planeHeightAtXZ (getRampPlane r) position.x position.z = some targetY →
      rampLoop position velocity ramps =
        (if position.y < targetY + carHeight / 2 - 0.001 then
            ({ position with y := targetY + carHeight / 2 }, { velocity with y := 0 }, true)
          else
            ({ position with y := lerp position.y (targetY + carHeight / 2) 0.3 },
              { velocity with y := 0 }, true))
  | [], r, t, hm, _ => by simp [matchedRamp] at hm
  | r0 :: rest, r, t, hm, ht => by
    unfold rampLoop
    by_cases hi : (carFootAABB position).intersectsBox (rampBox r0) = true
    · cases hp : planeHeightAtXZ (getRampPlane r0) position.x position.z with
      | none =>
        have hm' : matchedRamp position rest = some r := by
          simpa [matchedRamp, List.find?, hi, hp] using hm
        simp only [hi, if_true]
        exact rampLoop_of_matched position velocity rest r t hm' ht
      | some t0 =>
        have hr : r0 = r := by
          simpa [matchedRamp, List.find?, hi, hp] using hm
        subst hr
        rw [hp] at ht
        cases ht
        simp only [hi, if_true]
    · have hm' : matchedRamp position rest = some r := by
        simpa [matchedRamp, List.find?, hi] using hm
      simp only [hi]
      exact rampLoop_of_matched position velocity rest r t hm' ht

/-- The vertical integrator (lines 300-304) for a car resting at `carHeight / 2` with no
vertical velocity: nothing changes, for any `dt`. -/
theorem verticalIntegrator_of_rest (dt : α) (position velocity : Vector3 α)
    (hy : position.y = carHeight / 2) (hv : velocity.y = 0) :
    verticalIntegrator dt position velocity = (position, velocity) := by
  unfold verticalIntegrator
  simp only [hy, hv, zero_add]
  by_cases hr : dt / deltaTime = 0
  · simp only [hr, mul_zero, add_zero, lt_self_iff_false, if_false]
    refine Prod.ext ?_ ?_ <;> ext <;> simp [hy, hv]
  · have hpos : 0 < (dt / deltaTime) * (dt / deltaTime) := mul_self_pos.mpr hr
    have hlt : carHeight / 2 + gravity * (dt / deltaTime) * (dt / deltaTime) <
        (carHeight / 2 : α) := by
      have : (gravity : α) = -0.015 := rfl
      rw [this]
      nlinarith
    rw [if_pos hlt]
    refine Prod.ext ?_ ?_ <;> ext <;> simp [hy, hv]

/-- One frame for a car at rest on flat ground with no key held, clear of obstacles and
ramp regions: the state is unchanged, for any `dt`. -/
theorem resolve_of_rest (M : JSMath α) (world : World α) (dt : α) (car : Car α)
    (hy : car.position.y = carHeight / 2) (hv : car.velocity = ⟨0, 0, 0⟩)
    (hobs : ∀ b ∈ world.obstacles, getMTV (carBox car.position) b = none)
    (hramps : ∀ r ∈ world.ramps,
      (carFootAABB car.position).intersectsBox (rampBox r) = false) :
    resolveCollisionsAndMove M world noKeys dt car = car := by
  have ha : (forwardAccel noKeys : α) = 0 := forwardAccel_eq_zero rfl rfl
  have hj : jumpTrigger noKeys car.position.y (⟨0, 0, 0⟩ : Vector3 α) = ⟨0, 0, 0⟩ := by
    simp [jumpTrigger, noKeys]
  have hn : nextPos dt car.position (⟨0, 0, 0⟩ : Vector3 α) = car.position := by
    simp [nextPos, Vector3.add, Vector3.multiplyScalar]
  have hc := collisionStep_of_clear M.sqrt world.obstacles dt car.position ⟨0, 0, 0⟩
    (by rw [hn]; exact hobs)
  rw [hn] at hc
  unfold resolveCollisionsAndMove
  simp only [afterCollision_of_rest M world dt car hv ha, hj, hc,
    rampLoop_of_no_intersect _ _ world.ramps hramps,
    verticalIntegrator_of_rest dt car.position ⟨0, 0, 0⟩ hy rfl]
  simp [← hv]

end AtRest

section GroundClamp

variable {α : Type} [LinearOrderedField α]

/-- C5. Ground clamp idempotence: for every heading and every `dt` with `0 ≤ dt ≤ 0.05`, a
car at height `carHeight / 2` with zero velocity, no key held, no obstacle box overlapping
its box and its footprint meeting no widened ramp box is left exactly unchanged (position,
heading and velocity) by one call of `resolveCollisionsAndMove`, hence by any sequence of
calls with such `dt`. -/
theorem ground_clamp_idempotent (M : JSMath α) (world : World α) (dt : α) (car : Car α)
    (_hdt0 : 0 ≤ dt) (_hdt1 : dt ≤ 0.05)
    (hy : car.position.y = carHeight / 2) (hv : car.velocity = ⟨0, 0, 0⟩)
    (hobs : ∀ b ∈ world.obstacles, getMTV (carBox car.position) b = none)
    (hramps : ∀ r ∈ world.ramps,
      (carFootAABB car.position).intersectsBox (rampBox r) = false) :
    resolveCollisionsAndMove M world noKeys dt car = car ∧
    ∀ dts : List α, (∀ t ∈ dts, 0 ≤ t ∧ t ≤ 0.05) →
      simulate M world noKeys dts car = car := by
  refine ⟨resolve_of_rest M world dt car hy hv hobs hramps, ?_⟩
  intro dts
  induction dts with
  | nil => intro _; rfl
  | cons t rest ih =>
    intro h
    simp only [simulate, List.foldl_cons]
    rw [resolve_of_rest M world t car hy hv hobs hramps]
    exact ih (fun t' ht' => h t' (List.mem_cons_of_mem _ ht'))

end GroundClamp

section JumpFrame

variable {α : Type} [LinearOrderedField α]

/-- One frame for a car at rest on flat ground with Jump held and neither Accelerate nor
Brake, clear of obstacles at the tentative position and of ramp regions: the jump trigger
gives `velocity.y = jumpForce`, the car moves up by it, and the vertical integrator of the
same frame then applies gravity and moves the car up a second time. -/
theorem resolve_of_jump (M : JSMath α) (world : World α) (keys : Keys) (dt : α)
    (car : Car α) (hdt0 : 0 < dt) (hdt1 : dt ≤ 0.05)
    (hy : car.position.y = carHeight / 2) (hv : car.velocity = ⟨0, 0, 0⟩)
    (hjump : keys.jump = true) (hacc : keys.accelerate = false) (hbrake : keys.brake = false)
    (hobs : ∀ b ∈ world.obstacles,
      getMTV (carBox (nextPos dt car.position ⟨0, jumpForce, 0⟩)) b = none)
    (hramps : ∀ r ∈ world.ramps,
      (carFootAABB car.position).intersectsBox (rampBox r) = false) :
    resolveCollisionsAndMove M world keys dt car =
      ⟨⟨car.position.x,
        car.position.y + jumpForce * (dt / deltaTime)
          + (jumpForce + gravity * (dt / deltaTime)) * (dt / deltaTime),
        car.position.z⟩,
       car.rotationY,
       ⟨0, jumpForce + gravity * (dt / deltaTime), 0⟩⟩ := by
  have ha : (forwardAccel keys : α) = 0 := forwardAccel_eq_zero hacc hbrake
  have hj : jumpTrigger keys car.position.y (⟨0, 0, 0⟩ : Vector3 α) = ⟨0, jumpForce, 0⟩ := by
    simp only [Keys.jump] at hjump
    have hle : car.position.y ≤ carHeight / 2 + 0.01 := by rw [hy]; norm_num
    simp [jumpTrigger, hjump, hle]
  have hc := collisionStep_of_clear M.sqrt world.obstacles dt car.position
    ⟨0, jumpForce, 0⟩ hobs
  have hfoot : carFootAABB (nextPos dt car.position (⟨0, jumpForce, 0⟩ : Vector3 α)) =
      carFootAABB car.position := by
    simp [carFootAABB, nextPos, Vector3.add, Vector3.multiplyScalar]
  have hr := rampLoop_of_no_intersect (nextPos dt car.position (⟨0, jumpForce, 0⟩ : Vector3 α))
    ⟨0, jumpForce, 0⟩ world.ramps (by rw [hfoot]; exact hramps)
  have hratio0 : 0 < dt / deltaTime := by
    have : (deltaTime : α) = 1 / 60 := rfl
    rw [this]; positivity
  have hratio1 : dt / deltaTime ≤ 3 := by
    have : (deltaTime : α) = 1 / 60 := rfl
    rw [this]
    have : dt / (1 / 60) = dt * 60 := by field_simp
    rw [this]
    norm_num at hdt1
    linarith
  have hnoclamp : ¬ (car.position.y + jumpForce * (dt / deltaTime)
      + (jumpForce + gravity * (dt / deltaTime)) * (dt / deltaTime) < (carHeight / 2 : α)) := by
    have h1 : (jumpForce : α) = 0.35 := rfl
    have h2 : (gravity : α) = -0.015 := rfl
    rw [hy, h1, h2, not_lt]
    norm_num
    nlinarith
  unfold resolveCollisionsAndMove
  simp only [afterCollision_of_rest M world dt car hv ha, hj, hc, hr]
  simp only [verticalIntegrator, nextPos, Vector3.add, Vector3.multiplyScalar, zero_mul,
    add_zero, Bool.false_eq_true, if_false, if_neg hnoclamp]

end JumpFrame

section JumpImpulse

variable {α : Type} [LinearOrderedField α]

/-- C7 (amended). Jump impulse after one frame: for a car at rest on flat ground with Jump
held and neither Accelerate nor Brake, clear of obstacles at the tentative position and of
ramp regions, one call of `resolveCollisionsAndMove(dt)` with `0 < dt ≤ 0.05` leaves
`velocity.y = jumpForce + gravity * (dt / deltaTime)`, which is below `jumpForce`: the
vertical integrator applies gravity in the same frame. -/
theorem jump_impulse_after_one_frame (M : JSMath α) (world : World α) (keys : Keys) (dt : α)
    (car : Car α) (hdt0 : 0 < dt) (hdt1 : dt ≤ 0.05)
    (hy : car.position.y = carHeight / 2) (hv : car.velocity = ⟨0, 0, 0⟩)
    (hjump : keys.jump = true) (hacc : keys.accelerate = false) (hbrake : keys.brake = false)
    (hobs : ∀ b ∈ world.obstacles,
      getMTV (carBox (nextPos dt car.position ⟨0, jumpForce, 0⟩)) b = none)
    (hramps : ∀ r ∈ world.ramps,
      (carFootAABB car.position).intersectsBox (rampBox r) = false) :
    (resolveCollisionsAndMove M world keys dt car).velocity.y =
        jumpForce + gravity * (dt / deltaTime) ∧
    (resolveCollisionsAndMove M world keys dt car).velocity.y < jumpForce := by
  rw [resolve_of_jump M world keys dt car hdt0 hdt1 hy hv hjump hacc hbrake hobs hramps]
  refine ⟨rfl, ?_⟩
  have h2 : (gravity : α) = -0.015 := rfl
  have h3 : (deltaTime : α) = 1 / 60 := rfl
  have hratio0 : 0 < dt / deltaTime := by rw [h3]; positivity
  simp only [h2]
  nlinarith

/-- Witness of C7 (amended): the car at its start position (0, 0.5, 5), Space held, one
reference frame, in a scene holding the wall `createWall(100, 5, 1, 0, 2.5, 50)` and a flat
ramp at (20, 20). -/
theorem jump_impulse_after_one_frame_witness :
    (resolveCollisionsAndMove ratMath
        ⟨[boxFromCenterAndSize ⟨0, 2.5, 50⟩ ⟨100, 5, 1⟩], [createRamp ratMath 20 20 0]⟩
        ⟨false, false, false, false, false, false, false, false, true, false⟩ (1 / 60)
        ⟨⟨0, 1 / 2, 5⟩, 0, ⟨0, 0, 0⟩⟩).velocity.y = jumpForce + gravity * (1 / 60 / deltaTime) ∧
    (resolveCollisionsAndMove ratMath
        ⟨[boxFromCenterAndSize ⟨0, 2.5, 50⟩ ⟨100, 5, 1⟩], [createRamp ratMath 20 20 0]⟩
        ⟨false, false, false, false, false, false, false, false, true, false⟩ (1 / 60)
        ⟨⟨0, 1 / 2, 5⟩, 0, ⟨0, 0, 0⟩⟩).velocity.y < jumpForce :=
  jump_impulse_after_one_frame ratMath _ _ (1 / 60) _ (by norm_num) (by norm_num)
    (by norm_num [carHeight]) rfl rfl rfl rfl
    (by
      intro b hb
      simp only [List.mem_singleton] at hb
      subst hb
      norm_num [getMTV, carBox, nextPos, boxFromCenterAndSize, Vector3.multiplyScalar,
        Vector3.add, carWidth, carHeight, carLength, deltaTime, jumpForce])
    (by
      intro r hr
      simp only [List.mem_singleton] at hr
      subst hr
      norm_num [createRamp, ratMath, rampBox, carFootAABB, boxFromCenterAndSize,
        Box3.intersectsBox, Vector3.multiplyScalar, carWidth, carLength, rampWidth,
        rampHeight, rampLength])

/-- C7, counterexample: the car at rest at its start position (0, 0.5, 5) in a scene with
no obstacle and no ramp, Space the only key held, one reference frame `dt = 1/60`: the
frame ends with `velocity.y = 0.335`, not `jumpForce = 0.35`. -/
theorem jump_impulse_counterexample :
    (resolveCollisionsAndMove ratMath ⟨[], []⟩
        ⟨false, false, false, false, false, false, false, false, true, false⟩ (1 / 60)
        ⟨⟨0, 1 / 2, 5⟩, 0, ⟨0, 0, 0⟩⟩).velocity.y = 0.335 ∧
    (resolveCollisionsAndMove ratMath ⟨[], []⟩
        ⟨false, false, false, false, false, false, false, false, true, false⟩ (1 / 60)
        ⟨⟨0, 1 / 2, 5⟩, 0, ⟨0, 0, 0⟩⟩).velocity.y ≠ jumpForce := by
  rw [resolve_of_jump ratMath ⟨[], []⟩
    ⟨false, false, false, false, false, false, false, false, true, false⟩ (1 / 60)
    ⟨⟨0, 1 / 2, 5⟩, 0, ⟨0, 0, 0⟩⟩ (by norm_num) (by norm_num)
    (by norm_num [carHeight]) rfl rfl rfl rfl (by simp) (by simp)]
  norm_num [jumpForce, gravity, deltaTime]

/-- Witness of C5: the car at its start position (0, 0.5, 5), heading 0, in a scene holding
the wall `createWall(100, 5, 1, 0, 2.5, 50)` and a flat ramp at (20, 20), for one reference
frame. -/
theorem ground_clamp_idempotent_witness :
    resolveCollisionsAndMove ratMath
        ⟨[boxFromCenterAndSize ⟨0, 2.5, 50⟩ ⟨100, 5, 1⟩], [createRamp ratMath 20 20 0]⟩
        noKeys (1 / 60) ⟨⟨0, 1 / 2, 5⟩, 0, ⟨0, 0, 0⟩⟩ = ⟨⟨0, 1 / 2, 5⟩, 0, ⟨0, 0, 0⟩⟩ ∧
    ∀ dts : List ℚ, (∀ t ∈ dts, 0 ≤ t ∧ t ≤ 0.05) →
      simulate ratMath
        ⟨[boxFromCenterAndSize ⟨0, 2.5, 50⟩ ⟨100, 5, 1⟩], [createRamp ratMath 20 20 0]⟩
        noKeys dts ⟨⟨0, 1 / 2, 5⟩, 0, ⟨0, 0, 0⟩⟩ = ⟨⟨0, 1 / 2, 5⟩, 0, ⟨0, 0, 0⟩⟩ :=
  ground_clamp_idempotent ratMath _ (1 / 60) _ (by norm_num) (by norm_num)
    (by norm_num [carHeight]) rfl
    (by
      intro b hb
      simp only [List.mem_singleton] at hb
      subst hb
      norm_num [getMTV, carBox, boxFromCenterAndSize, Vector3.multiplyScalar,
        carWidth, carHeight, carLength])
    (by
      intro r hr
      simp only [List.mem_singleton] at hr
      subst hr
      norm_num [createRamp, ratMath, rampBox, carFootAABB, boxFromCenterAndSize,
        Box3.intersectsBox, Vector3.multiplyScalar, carWidth, carLength, rampWidth,
        rampHeight, rampLength])

end JumpImpulse

section FlatRamp

variable {α : Type} [LinearOrderedField α]

/-- A flat ramp built by `createRamp(x, z, 0)`, given `Math.sin(0) = 0`: its plane has the
normal (0, 1, 0) and the mesh centre `(x, rampHeight / 2, z)` as anchor, so the height over
any point is `rampHeight / 2`. -/
theorem planeHeight_flat_ramp (M : JSMath α) (hsin : M.sin 0 = 0) (x z px pz : α) :
    planeHeightAtXZ (getRampPlane (createRamp M x z 0)) px pz = some (rampHeight / 2) := by
  have h6 : ¬ ((1 : α) < 1e-6) := by norm_num
  simp [planeHeightAtXZ, getRampPlane, createRamp, Vector3.applyQuaternion, hsin, h6]

theorem footprint_meets_flat_ramp (M : JSMath α) (hsin : M.sin 0 = 0) (x z y : α) :
    (carFootAABB ⟨x, y, z⟩).intersectsBox (rampBox (createRamp M x z 0)) = true := by
  simp only [carFootAABB, rampBox, createRamp, boxFromCenterAndSize, Box3.intersectsBox,
    Vector3.multiplyScalar, zero_div, hsin, carWidth, carLength, rampWidth, rampHeight,
    rampLength, decide_eq_true_eq]
  norm_num
  refine ⟨?_, ?_, ?_, ?_⟩ <;> linarith

/-- One frame for a car at rest with no key held, clear of obstacles, centred over the
anchor of a flat ramp that comes first in the ramp list: the ramp loop snaps the car to
`rampHeight / 2 + carHeight / 2`. -/
theorem resolve_on_flat_ramp (M : JSMath α) (hsin : M.sin 0 = 0) (world : World α)
    (dt x z : α) (car : Car α) (rest : List (Ramp α))
    (hp : car.position = ⟨x, carHeight / 2, z⟩) (hv : car.velocity = ⟨0, 0, 0⟩)
    (hobs : ∀ b ∈ world.obstacles, getMTV (carBox car.position) b = none)
    (hr : world.ramps = createRamp M x z 0 :: rest) :
    resolveCollisionsAndMove M world noKeys dt car =
      ⟨⟨x, rampHeight / 2 + carHeight / 2, z⟩, car.rotationY, ⟨0, 0, 0⟩⟩ := by
  have ha : (forwardAccel noKeys : α) = 0 := forwardAccel_eq_zero rfl rfl
  have hj : jumpTrigger noKeys car.position.y (⟨0, 0, 0⟩ : Vector3 α) = ⟨0, 0, 0⟩ := by
    simp [jumpTrigger, noKeys]
  have hn : nextPos dt car.position (⟨0, 0, 0⟩ : Vector3 α) = car.position := by
    simp [nextPos, Vector3.add, Vector3.multiplyScalar]
  have hc := collisionStep_of_clear M.sqrt world.obstacles dt car.position ⟨0, 0, 0⟩
    (by rw [hn]; exact hobs)
  rw [hn] at hc
  have hfoot := footprint_meets_flat_ramp M hsin x z (carHeight / 2)
  have hplane := planeHeight_flat_ramp M hsin x z x z
  have hm : matchedRamp car.position world.ramps = some (createRamp M x z 0) := by
    rw [hr, hp]
    simp [matchedRamp, List.find?, hfoot, hplane]
  have hloop := rampLoop_of_matched car.position ⟨0, 0, 0⟩ world.ramps _ _ hm
    (by rw [hp]; exact hplane)
  have hlt : car.position.y < rampHeight / 2 + carHeight / 2 - (0.001 : α) := by
    rw [hp]; norm_num [rampHeight, carHeight]
  rw [if_pos hlt] at hloop
  unfold resolveCollisionsAndMove
  simp only [afterCollision_of_rest M world dt car hv ha, hj, hc, hloop, if_true]
  simp [hp]

/-- The state at line 276 for a car at rest with no key held and no obstacle box overlapping
its box: nothing has changed yet. -/
theorem afterCollision_of_rest_clear (M : JSMath α) (world : World α) (dt : α) (car : Car α)
    (hv : car.velocity = ⟨0, 0, 0⟩)
    (hobs : ∀ b ∈ world.obstacles, getMTV (carBox car.position) b = none) :
    afterCollision M world noKeys dt car = car := by
  have ha : (forwardAccel noKeys : α) = 0 := forwardAccel_eq_zero rfl rfl
  have hj : jumpTrigger noKeys car.position.y (⟨0, 0, 0⟩ : Vector3 α) = ⟨0, 0, 0⟩ := by
    simp [jumpTrigger, noKeys]
  have hn : nextPos dt car.position (⟨0, 0, 0⟩ : Vector3 α) = car.position := by
    simp [nextPos, Vector3.add, Vector3.multiplyScalar]
  have hc := collisionStep_of_clear M.sqrt world.obstacles dt car.position ⟨0, 0, 0⟩
    (by rw [hn]; exact hobs)
  rw [hn] at hc
  simp only [afterCollision_of_rest M world dt car hv ha, hj, hc]
  simp [← hv]

end FlatRamp

section Ramps

variable {α : Type} [LinearOrderedField α]

/-- C8. Ramp conformance: in every frame where the ramp loop matches a ramp `r` at the
position `c.position` left by the collision step, `planeHeightAtXZ` gives a height
`targetY` there and, with `target = targetY + carHeight / 2` and `old = c.position.y`,
`resolveCollisionsAndMove` ends with `velocity.y = 0` and `position.y ≥ target - 0.001`;
`position.y` is exactly `target` when `old < target - 0.001` and the 0.3 linear blend
`(1 - 0.3) * old + 0.3 * target` otherwise; the flag `onAnyRamp` is set, so the vertical
integrator does not run and everything else is as the collision step left it. -/
theorem ramp_conformance (M : JSMath α) (world : World α) (keys : Keys) (dt : α)
    (car c : Car α) (r : Ramp α) (hc : afterCollision M world keys dt car = c)
    (hm : matchedRamp c.position world.ramps = some r) :
    ∃ targetY : α,
      planeHeightAtXZ (getRampPlane r) c.position.x c.position.z = some targetY ∧
      (rampLoop c.position c.velocity world.ramps).2.2 = true ∧
      (resolveCollisionsAndMove M world keys dt car).velocity = ⟨c.velocity.x, 0, c.velocity.z⟩ ∧
      (resolveCollisionsAndMove M world keys dt car).position.y ≥
        targetY + carHeight / 2 - 0.001 ∧
      (resolveCollisionsAndMove M world keys dt car).position =
        ⟨c.position.x,
         if c.position.y < targetY + carHeight / 2 - 0.001 then targetY + carHeight / 2
         else (1 - 0.3) * c.position.y + 0.3 * (targetY + carHeight / 2),
         c.position.z⟩ ∧
      (resolveCollisionsAndMove M world keys dt car).rotationY = c.rotationY := by
  have hsome : (planeHeightAtXZ (getRampPlane r) c.position.x c.position.z).isSome = true := by
    have := List.find?_some hm
    simp only [Bool.and_eq_true] at this
    exact this.2
  obtain ⟨targetY, ht⟩ := Option.isSome_iff_exists.mp hsome
  have hloop := rampLoop_of_matched c.position c.velocity world.ramps r targetY hm ht
  refine ⟨targetY, ht, ?_⟩
  unfold resolveCollisionsAndMove
  simp only [hc]
  by_cases hlt : c.position.y < targetY + carHeight / 2 - 0.001
  · rw [if_pos hlt] at hloop
    simp only [hloop, if_true, if_pos hlt, true_and]
    refine ⟨?_, trivial⟩
    linarith [show (0 : α) ≤ 0.001 by norm_num]
  · rw [if_neg hlt] at hloop
    simp only [hloop, if_true, if_neg hlt, true_and, lerp]
    refine ⟨?_, trivial⟩
    have := not_lt.mp hlt
    simp only [ge_iff_le]
    norm_num at this ⊢
    linarith

/-- Witness of C8, one input per branch, over a flat ramp built at (20, 20) (plane height 1,
target 1.5) in a scene without obstacles, no key held.  Snap: the car at rest at
(20, 0.5, 20) ends at height 1.5.  Blend: the car at rest at (20, 2.5, 20) ends at height
`0.7 * 2.5 + 0.3 * 1.5 = 2.2`, and gravity has not been applied. -/
theorem ramp_conformance_witness :
    (afterCollision ratMath ⟨[], [createRamp ratMath 20 20 0]⟩ noKeys (1 / 60)
        ⟨⟨20, 1 / 2, 20⟩, 0, ⟨0, 0, 0⟩⟩ = ⟨⟨20, 1 / 2, 20⟩, 0, ⟨0, 0, 0⟩⟩ ∧
     matchedRamp (⟨20, 1 / 2, 20⟩ : Vector3 ℚ) [createRamp ratMath 20 20 0] =
        some (createRamp ratMath 20 20 0) ∧
     resolveCollisionsAndMove ratMath ⟨[], [createRamp ratMath 20 20 0]⟩ noKeys (1 / 60)
        ⟨⟨20, 1 / 2, 20⟩, 0, ⟨0, 0, 0⟩⟩ = ⟨⟨20, 1.5, 20⟩, 0, ⟨0, 0, 0⟩⟩) ∧
    (afterCollision ratMath ⟨[], [createRamp ratMath 20 20 0]⟩ noKeys (1 / 60)
        ⟨⟨20, 2.5, 20⟩, 0, ⟨0, 0, 0⟩⟩ = ⟨⟨20, 2.5, 20⟩, 0, ⟨0, 0, 0⟩⟩ ∧
     matchedRamp (⟨20, 2.5, 20⟩ : Vector3 ℚ) [createRamp ratMath 20 20 0] =
        some (createRamp ratMath 20 20 0) ∧
     resolveCollisionsAndMove ratMath ⟨[], [createRamp ratMath 20 20 0]⟩ noKeys (1 / 60)
        ⟨⟨20, 2.5, 20⟩, 0, ⟨0, 0, 0⟩⟩ = ⟨⟨20, 2.2, 20⟩, 0, ⟨0, 0, 0⟩⟩) := by
  have hsin : ratMath.sin 0 = 0 := by norm_num [ratMath]
  have hplane : ∀ px pz : ℚ,
      planeHeightAtXZ (getRampPlane (createRamp ratMath 20 20 0)) px pz = some 1 := by
    intro px pz
    rw [planeHeight_flat_ramp ratMath hsin]
    norm_num [rampHeight]
  have hmatch : ∀ y : ℚ, matchedRamp (⟨20, y, 20⟩ : Vector3 ℚ) [createRamp ratMath 20 20 0] =
      some (createRamp ratMath 20 20 0) := by
    intro y
    simp [matchedRamp, List.find?, footprint_meets_flat_ramp ratMath hsin,
      planeHeight_flat_ramp ratMath hsin]
  have hafter : ∀ y : ℚ,
      afterCollision ratMath ⟨[], [createRamp ratMath 20 20 0]⟩ noKeys (1 / 60)
        ⟨⟨20, y, 20⟩, 0, ⟨0, 0, 0⟩⟩ = ⟨⟨20, y, 20⟩, 0, ⟨0, 0, 0⟩⟩ :=
    fun y => afterCollision_of_rest_clear ratMath _ _ _ rfl (by simp)
  refine ⟨⟨hafter _, hmatch _, ?_⟩, ⟨hafter _, hmatch _, ?_⟩⟩
  · obtain ⟨t, ht, -, hvel, -, hpos, hrot⟩ :=
      ramp_conformance ratMath ⟨[], [createRamp ratMath 20 20 0]⟩ noKeys (1 / 60)
        ⟨⟨20, 1 / 2, 20⟩, 0, ⟨0, 0, 0⟩⟩ ⟨⟨20, 1 / 2, 20⟩, 0, ⟨0, 0, 0⟩⟩
        (createRamp ratMath 20 20 0) (hafter _) (hmatch _)
    rw [hplane] at ht
    cases ht
    refine Car.ext ?_ hrot hvel
    rw [hpos]
    norm_num [carHeight]
  · obtain ⟨t, ht, -, hvel, -, hpos, hrot⟩ :=
      ramp_conformance ratMath ⟨[], [createRamp ratMath 20 20 0]⟩ noKeys (1 / 60)
        ⟨⟨20, 2.5, 20⟩, 0, ⟨0, 0, 0⟩⟩ ⟨⟨20, 2.5, 20⟩, 0, ⟨0, 0, 0⟩⟩
        (createRamp ratMath 20 20 0) (hafter _) (hmatch _)
    rw [hplane] at ht
    cases ht
    refine Car.ext ?_ hrot hvel
    rw [hpos]
    norm_num [carHeight]

/-- C9 (amended). Ramp height, flat case: for a ramp built by `createRamp(x, z, 0)` that
comes first in the ramp list, and a car at `(x, carHeight / 2, z)` with zero velocity, no
key held and no obstacle box overlapping its box, one call of `resolveCollisionsAndMove`
yields `position.y = rampHeight / 2 + carHeight / 2`: the plane's anchor is the mesh
centre, at height `rampHeight / 2`.  Relies on `Math.sin(0)` being 0. -/
theorem flat_ramp_height (M : JSMath α) (hsin : M.sin 0 = 0) (world : World α)
    (dt x z : α) (car : Car α) (rest : List (Ramp α))
    (hp : car.position = ⟨x, carHeight / 2, z⟩) (hv : car.velocity = ⟨0, 0, 0⟩)
    (hobs : ∀ b ∈ world.obstacles, getMTV (carBox car.position) b = none)
    (hr : world.ramps = createRamp M x z 0 :: rest) :
    (resolveCollisionsAndMove M world noKeys dt car).position.y =
      rampHeight / 2 + carHeight / 2 := by
  rw [resolve_on_flat_ramp M hsin world dt x z car rest hp hv hobs hr]

/-- Witness of C9 (amended): a flat ramp at (20, 20), the car over its anchor, the wall
`createWall(100, 5, 1, 0, 2.5, 50)` as only obstacle, one reference frame. -/
theorem flat_ramp_height_witness :
    ratMath.sin 0 = 0 ∧
    (resolveCollisionsAndMove ratMath
        ⟨[boxFromCenterAndSize ⟨0, 2.5, 50⟩ ⟨100, 5, 1⟩], [createRamp ratMath 20 20 0]⟩
        noKeys (1 / 60) ⟨⟨20, carHeight / 2, 20⟩, 0, ⟨0, 0, 0⟩⟩).position.y =
      rampHeight / 2 + carHeight / 2 :=
  ⟨by norm_num [ratMath],
   flat_ramp_height ratMath (by norm_num [ratMath]) _ (1 / 60) 20 20 _ [] rfl rfl
    (by
      intro b hb
      simp only [List.mem_singleton] at hb
      subst hb
      norm_num [getMTV, carBox, boxFromCenterAndSize, Vector3.multiplyScalar,
        carWidth, carHeight, carLength])
    rfl⟩

/-- C9, counterexample: a flat ramp built by `createRamp(20, 20, 0)`, the car at rest at
(20, 0.5, 20) over its anchor, no key held, no obstacle, one reference frame: the frame
ends with `position.y = 1.5`, not `carHeight / 2 = 0.5`. -/
theorem flat_ramp_height_counterexample :
    (resolveCollisionsAndMove ratMath ⟨[], [createRamp ratMath 20 20 0]⟩ noKeys (1 / 60)
        ⟨⟨20, carHeight / 2, 20⟩, 0, ⟨0, 0, 0⟩⟩).position.y = 1.5 ∧
    (resolveCollisionsAndMove ratMath ⟨[], [createRamp ratMath 20 20 0]⟩ noKeys (1 / 60)
        ⟨⟨20, carHeight / 2, 20⟩, 0, ⟨0, 0, 0⟩⟩).position.y ≠ carHeight / 2 := by
  rw [resolve_on_flat_ramp ratMath (by norm_num [ratMath])
    ⟨[], [createRamp ratMath 20 20 0]⟩ (1 / 60) 20 20
    ⟨⟨20, carHeight / 2, 20⟩, 0, ⟨0, 0, 0⟩⟩ [] rfl rfl (by simp) rfl]
  norm_num [rampHeight, carHeight]

end Ramps

end CarPhysics
